import Mathlib

/-!
Verification of the consolidation / validation / alert-filter core of the
occupational-health record pipeline (Agente-ocupacional).

Shallow embedding conventions:
  - Python strings are `List Char` (type `Str`); `str s` injects a Lean string
    literal.  `.lower()` is modelled on the ASCII range, `.strip()` uses the
    main Python whitespace characters.
  - Python dicts standing for records become structures with `Option` fields;
    `x.get(k, d)` becomes `field.getD d`; Python truthiness of a string is
    non-emptiness, of an optional block it is `Option.isSome`.
  - Python floats become `ℚ` (every concrete float is a rational and the
    comparisons used by the code coincide).
  - Python dicts used as insertion-ordered key/value maps become association
    lists (`List (Str × E)`) built with `upsert`, which preserves the position
    of an existing key and appends new keys, exactly as CPython dicts do.
  - Fallible code (`pydantic.model_validate`, which raises `ValidationError`)
    returns `Option`.
-/

/-! ## Basic string machinery -/

/-- Python strings, as lists of characters. -/
abbrev Str := List Char

/-- Inject a Lean string literal. -/
def str (s : String) : Str := s.data

/-- ASCII lower-casing of one character (models `str.lower` on the data that
occurs in this code base). -/
def lowerChar (c : Char) : Char :=
  if 'A' ≤ c ∧ c ≤ 'Z' then Char.ofNat (c.toNat + 32) else c

/-- ASCII upper-casing of one character (models `str.upper`). -/
def upperChar (c : Char) : Char :=
  if 'a' ≤ c ∧ c ≤ 'z' then Char.ofNat (c.toNat - 32) else c

def lower (s : Str) : Str := s.map lowerChar

def upper (s : Str) : Str := s.map upperChar

/-- The whitespace characters stripped by Python `str.strip()` and matched by
the regex class backslash-s. -/
def isSpaceChar (c : Char) : Bool :=
  c = ' ' ∨ c = '\t' ∨ c = '\n' ∨ c = '\x0d' ∨ c = '\x0b' ∨ c = '\x0c'

/-- Python `str.strip()`. -/
def strip (s : Str) : Str :=
  ((s.dropWhile isSpaceChar).reverse.dropWhile isSpaceChar).reverse

/-- Python substring test `needle in hay`. -/
def isSub (needle : Str) : Str → Bool
  | [] => needle.isEmpty
  | c :: t => needle.isPrefixOf (c :: t) || isSub needle t

/-- A regex word character (backslash-w), modelled on the ASCII range. -/
def isWordChar (c : Char) : Bool :=
  ('a' ≤ c ∧ c ≤ 'z') ∨ ('A' ≤ c ∧ c ≤ 'Z') ∨ ('0' ≤ c ∧ c ≤ '9') ∨ c = '_'

/-- Does word `w` match at the head of `s` with a word boundary on its right? -/
def wordAt (w s : Str) : Bool :=
  w.isPrefixOf s &&
    (match s.drop w.length with
     | [] => true
     | c :: _ => !isWordChar c)

/-- Search for `w` as a whole word (regex boundary-w-boundary) anywhere in `s`;
`prev` is the character immediately before the current position. -/
def searchWord (w : Str) : Option Char → Str → Bool
  | _, [] => false
  | prev, c :: t =>
      ((match prev with
        | none => true
        | some p => !isWordChar p) && wordAt w (c :: t))
      || searchWord w (some c) t

/-- Collapse runs of whitespace to single spaces and trim, i.e. Python
`" ".join(text.split())`. -/
def collapseWs (s : Str) : Str :=
  List.intercalate (str (" ")) ((s.splitOnP isSpaceChar).filter (fun w => w ≠ []))

/-- Strip the diacritics that occur in this (Spanish-language) code base;
models unicode NFD/NFKD decomposition followed by removal of combining marks. -/
def stripAccentChar (c : Char) : Char :=
  if c = 'á' then 'a' else if c = 'é' then 'e' else if c = 'í' then 'i'
  else if c = 'ó' then 'o' else if c = 'ú' then 'u' else if c = 'ü' then 'u'
  else if c = 'ñ' then 'n' else if c = 'Á' then 'A' else if c = 'É' then 'E'
  else if c = 'Í' then 'I' else if c = 'Ó' then 'O' else if c = 'Ú' then 'U'
  else if c = 'Ü' then 'U' else if c = 'Ñ' then 'N' else c

def stripAccents (s : Str) : Str := s.map stripAccentChar

/-- Decimal rendering of a natural number. -/
def natToStr (n : Nat) : Str :=
  if h : n < 10 then [Char.ofNat (48 + n)]
  else natToStr (n / 10) ++ [Char.ofNat (48 + n % 10)]
  decreasing_by exact Nat.div_lt_self (by omega) (by omega)

/-- Truthiness of an optional string (Python: `None` and the empty string are
falsy). -/
def optTruthy (o : Option Str) : Bool :=
  match o with
  | none => false
  | some s => !s.isEmpty

/-- Python `a or b` on optional strings: `a` unless it is falsy. -/
def pyOr (a b : Option Str) : Option Str :=
  if optTruthy a then a else b

/-! ## Record shapes (src/src/config/schemas.py, modelled as dict-style
structures with independently optional fields) -/

/-- An alert (schemas.py, class Alerta). -/
structure Alerta where
  tipo : Str
  severidad : Str
  campo_afectado : Str
  descripcion : Str
  accion_sugerida : Str
deriving DecidableEq

/-- A diagnosis entry (schemas.py, class Diagnostico; dict-style). -/
structure Diagnostico where
  codigo_cie10 : Option Str
  descripcion : Option Str
  tipo : Option Str
  confianza : Option ℚ
deriving DecidableEq

/-- An antecedent entry (schemas.py, class Antecedente; dict-style). -/
structure Antecedente where
  tipo : Option Str
  descripcion : Option Str
  fecha_aproximada : Option Str
deriving DecidableEq

/-- An exam entry (schemas.py, class Examen; dict-style, with the
`fecha_realizacion` key used by the merge code). -/
structure Examen where
  tipo : Option Str
  nombre : Option Str
  fecha_realizacion : Option Str
  resultado : Option Str
  hallazgos_clave : Option Str
  interpretacion : Option Str
deriving DecidableEq

/-- A recommendation entry (schemas.py, class Recomendacion; dict-style). -/
structure Recomendacion where
  tipo : Option Str
  descripcion : Option Str
  prioridad : Option Str
deriving DecidableEq

/-- The vital-signs block (schemas.py, class SignosVitales; dict-style).
Numeric fields are rationals, see the float convention above. -/
structure SignosVitales where
  presion_arterial : Option Str
  frecuencia_cardiaca : Option ℚ
  frecuencia_respiratoria : Option ℚ
  temperatura : Option ℚ
  saturacion_oxigeno : Option ℚ
  peso_kg : Option ℚ
  talla_cm : Option ℚ
  imc : Option ℚ
deriving DecidableEq

/-- A calendar date (Python datetime.date), with its lexicographic order. -/
structure Fecha where
  y : Int
  m : Int
  d : Int
deriving DecidableEq

/-- Date comparison (datetime.date is ordered lexicographically on
year, month, day). -/
def fechaLt (a b : Fecha) : Bool :=
  a.y < b.y ∨ (a.y = b.y ∧ (a.m < b.m ∨ (a.m = b.m ∧ a.d < b.d)))

/-- One clinical-record dict (HistoriaClinicaEstructurada), restricted to the
fields read by the consolidation, validation and filter code under study. -/
structure Historia where
  tipo_documento_fuente : Str
  fecha_emo : Option Fecha
  tipo_emo : Option Str
  signos_vitales : Option SignosVitales
  diagnosticos : List Diagnostico
  antecedentes : List Antecedente
  examenes : List Examen
  recomendaciones : List Recomendacion
  aptitud_laboral : Option Str
  restricciones_especificas : Option Str
  alertas_validacion : List Alerta
deriving DecidableEq

/-! ## Insertion-ordered dict machinery

CPython dicts preserve insertion order; assigning to an existing key keeps its
position, and `dict.values()` lists values in that order.  All the merge
functions of `consolidate_person.py` / `processor_service.py` are folds over
the incoming entry stream into such a dict, where a collision on an existing
key combines the stored value with the incoming one. -/

section MergeBy

variable {E : Type}

/-- Insert `v` under key `k`: an existing key keeps its position and its value
is combined with `v`; a new key is appended. -/
def upsert (combine : E → E → E) : List (Str × E) → Str → E → List (Str × E)
  | [], k, v => [(k, v)]
  | (k', v') :: t, k, v =>
      if k' = k then (k', combine v' v) :: t
      else (k', v') :: upsert combine t k v

/-- One loop iteration of a merge: entries whose key function yields `none`
are skipped (the `continue` branches of the source). -/
def mergeStep (keyOf : E → Option Str) (combine : E → E → E)
    (s : List (Str × E)) (e : E) : List (Str × E) :=
  match keyOf e with
  | none => s
  | some k => upsert combine s k e

/-- Fold an entry stream into the dict. -/
def mergeEntries (keyOf : E → Option Str) (combine : E → E → E)
    (l : List E) : List (Str × E) :=
  l.foldl (mergeStep keyOf combine) []

/-- `dict.values()` of the merge result. -/
def mergeVals (keyOf : E → Option Str) (combine : E → E → E)
    (l : List E) : List E :=
  (mergeEntries keyOf combine l).map Prod.snd

/-- Association-list lookup (`dict[k]` / `dict.get(k)`). -/
def alookup : List (Str × E) → Str → Option E
  | [], _ => none
  | (k', v) :: t, k => if k' = k then some v else alookup t k

/-- The keys of the dict, in insertion order. -/
def keysOf (s : List (Str × E)) : List Str := s.map Prod.fst

end MergeBy

/-! ## consolidate_person.py : merge functions -/

/-- Key of a diagnosis entry: its code; `if not codigo: continue`
(consolidate_person.py lines 55-58). -/
def diagKey (d : Diagnostico) : Option Str :=
  match d.codigo_cie10 with
  | none => none
  | some c => if c = [] then none else some c

/-- `diag.get('confianza', 0.0)` (consolidate_person.py lines 65-66). -/
def confianzaOf (d : Diagnostico) : ℚ := d.confianza.getD 0

/-- On a duplicate code keep the entry with strictly higher confidence
(consolidate_person.py lines 63-69). -/
def diagCombine (old new : Diagnostico) : Diagnostico :=
  if confianzaOf new > confianzaOf old then new else old

/-- merge_diagnosticos (consolidate_person.py lines 46-71). -/
def merge_diagnosticos (historias : List Historia) : List Diagnostico :=
  mergeVals diagKey diagCombine (historias.map Historia.diagnosticos).flatten

/-- Key of an antecedent: `tipo + ':' + descripcion.strip().lower()`, skipped
when the normalized description is empty (consolidate_person.py lines 83-91). -/
def antKey (a : Antecedente) : Option Str :=
  let tipo := a.tipo.getD []
  let descripcion := lower (strip (a.descripcion.getD []))
  if descripcion = [] then none else some (tipo ++ [':'] ++ descripcion)

def fechaApx (a : Antecedente) : Str := a.fecha_aproximada.getD []

/-- On a duplicate antecedent key keep the entry with the later (string-compared)
approximate date; an empty incoming date never replaces
(consolidate_person.py lines 96-102). -/
def antCombine (old new : Antecedente) : Antecedente :=
  if fechaApx new ≠ [] ∧ (fechaApx old = [] ∨ fechaApx old < fechaApx new)
  then new else old

/-- merge_antecedentes (consolidate_person.py lines 74-104). -/
def merge_antecedentes (historias : List Historia) : List Antecedente :=
  mergeVals antKey antCombine (historias.map Historia.antecedentes).flatten

/-- Key of an exam: `tipo + ':' + fecha_realizacion`, skipped when the type is
empty (consolidate_person.py lines 116-124). -/
def examKey (e : Examen) : Option Str :=
  let tipo := e.tipo.getD []
  let fecha := e.fecha_realizacion.getD []
  if tipo = [] then none else some (tipo ++ [':'] ++ fecha)

/-- Last-write-wins on a duplicate exam key (consolidate_person.py line 127). -/
def examCombine (_old new : Examen) : Examen := new

/-- One step of a stable descending insertion by `fecha_realizacion`: the new
element passes every at-least-as-large earlier element, so equal dates keep
their original relative order. -/
def insertByFechaDesc (e : Examen) : List Examen → List Examen
  | [] => [e]
  | b :: t =>
      if (b.fecha_realizacion.getD []) < (e.fecha_realizacion.getD []) then e :: b :: t
      else b :: insertByFechaDesc e t

/-- Descending stable sort by `fecha_realizacion` (consolidate_person.py
lines 130-134; Python `list.sort(key=..., reverse=True)` is a stable
descending sort, and a stable insertion sort produces the same unique stable
descending arrangement). -/
def sortExamenes (l : List Examen) : List Examen :=
  l.foldl (fun acc e => insertByFechaDesc e acc) []

theorem mem_insertByFechaDesc (x e : Examen) :
    ∀ l : List Examen, x ∈ insertByFechaDesc e l ↔ x = e ∨ x ∈ l := by
  intro l
  induction l with
  | nil => simp [insertByFechaDesc]
  | cons b t ih =>
      unfold insertByFechaDesc
      by_cases h : (b.fecha_realizacion.getD []) < (e.fecha_realizacion.getD [])
      · rw [if_pos h]
        simp
      · rw [if_neg h]
        simp only [List.mem_cons, ih]
        constructor
        · rintro (h1 | h1 | h1)
          · exact Or.inr (Or.inl h1)
          · exact Or.inl h1
          · exact Or.inr (Or.inr h1)
        · rintro (h1 | h1 | h1)
          · exact Or.inr (Or.inl h1)
          · exact Or.inl h1
          · exact Or.inr (Or.inr h1)

theorem mem_sortExamenes (x : Examen) (l : List Examen) :
    x ∈ sortExamenes l ↔ x ∈ l := by
  have haux : ∀ (l acc : List Examen),
      (x ∈ l.foldl (fun acc e => insertByFechaDesc e acc) acc ↔ x ∈ acc ∨ x ∈ l) := by
    intro l
    induction l with
    | nil => intro acc; simp
    | cons e t ih =>
        intro acc
        rw [List.foldl_cons, ih, mem_insertByFechaDesc]
        constructor
        · rintro ((h1 | h1) | h1)
          · exact Or.inr (List.mem_cons_self _ _ |> fun hh => by rw [h1]; exact hh)
          · exact Or.inl h1
          · exact Or.inr (List.mem_cons_of_mem _ h1)
        · rintro (h1 | h1)
          · exact Or.inl (Or.inr h1)
          · rcases List.mem_cons.mp h1 with h2 | h2
            · exact Or.inl (Or.inl h2)
            · exact Or.inr h2
  rw [sortExamenes, haux l []]
  simp

/-- merge_examenes (consolidate_person.py lines 107-136). -/
def merge_examenes (historias : List Historia) : List Examen :=
  sortExamenes (mergeVals examKey examCombine (historias.map Historia.examenes).flatten)

/-! ## src/src/processors/alert_filters.py -/

/-- WHITELIST_ALERT_TYPES (alert_filters.py lines 33-38). -/
def WHITELIST_ALERT_TYPES : List Str :=
  [str ("valor_critico"), str ("formato_incorrecto"),
   str ("inconsistencia_diagnostica"), str ("fecha_invalida")]

/-- The administrative field names of ADMINISTRATIVE_FIELDS_PATTERN
(alert_filters.py lines 41-44), matched as whole words, case-insensitively. -/
def adminWords : List Str :=
  [str ("eps"), str ("arl"), str ("afiliacion"), str ("empresa"),
   str ("area"), str ("cargo"), str ("antiguedad"), str ("edad"),
   str ("sexo"), str ("fecha_nacimiento")]

/-- `ADMINISTRATIVE_FIELDS_PATTERN.search(text)`: some administrative field
name occurs as a whole word (regex word boundaries, IGNORECASE). -/
def adminSearch (s : Str) : Bool :=
  adminWords.any (fun w => searchWord w none (lower s))

/-- is_signos_vitales_alert_in_cmo (alert_filters.py lines 51-80). -/
def is_signos_vitales_alert_in_cmo (alerta : Alerta) (historia : Historia) : Bool :=
  if historia.tipo_documento_fuente ≠ str ("cmo") then false
  else if alerta.tipo ≠ str ("dato_faltante") then false
  else
    let descL := lower alerta.descripcion
    let campo := lower alerta.campo_afectado
    [str ("signos_vitales"), str ("signos vitales"), str ("presion"),
     str ("frecuencia"), str ("temperatura"), str ("saturacion"),
     str ("peso"), str ("talla"), str ("imc")].any
      (fun kw => isSub kw descL || isSub kw campo)

/-- is_administrative_alert (alert_filters.py lines 83-105). -/
def is_administrative_alert (alerta : Alerta) : Bool :=
  if alerta.tipo ≠ str ("dato_faltante") then false
  else adminSearch alerta.descripcion || adminSearch alerta.campo_afectado

/-- is_covered_in_consolidated (alert_filters.py lines 108-146). -/
def is_covered_in_consolidated (alerta : Alerta) (historia : Historia) : Bool :=
  if ¬ (historia.tipo_documento_fuente = str ("consolidado") ∨
        historia.tipo_documento_fuente = str ("hc_completa")) then false
  else if alerta.tipo ≠ str ("dato_faltante") then false
  else
    let descL := lower alerta.descripcion
    let fieldChecks : List (List Str × Bool) :=
      [([str ("tipo_emo"), str ("tipo de emo")], optTruthy historia.tipo_emo),
       ([str ("aptitud"), str ("aptitud laboral")], optTruthy historia.aptitud_laboral),
       ([str ("diagnostico"), str ("diagnóstico")], decide (historia.diagnosticos.length > 0)),
       ([str ("fecha_emo"), str ("fecha del emo")], historia.fecha_emo.isSome),
       ([str ("signos vitales"), str ("signos_vitales")], historia.signos_vitales.isSome)]
    fieldChecks.any (fun p => p.1.any (fun kw => isSub kw descL) && p.2)

/-- is_invalid_for_exam_especifico (alert_filters.py lines 149-203). -/
def is_invalid_for_exam_especifico (alerta : Alerta) (historia : Historia) : Bool :=
  if historia.tipo_documento_fuente ≠ str ("examen_especifico") then false
  else if alerta.tipo ≠ str ("dato_faltante") then false
  else
    let descL := lower alerta.descripcion
    isSub (str ("diagnóstico principal")) descL || isSub (str ("diagnostico principal")) descL ||
    isSub (str ("tipo_emo")) descL || isSub (str ("tipo de emo")) descL ||
    isSub (str ("sin tipo_emo")) descL ||
    (isSub (str ("aptitud")) descL && isSub (str ("laboral")) descL) ||
    isSub (str ("concepto de aptitud")) descL || isSub (str ("sin aptitud")) descL ||
    isSub (str ("fecha_emo")) descL || isSub (str ("fecha del emo")) descL ||
    isSub (str ("no se encontraron diagnosticos")) descL ||
    isSub (str ("no se encontraron diagnósticos")) descL ||
    isSub (str ("sin diagnosticos")) descL || isSub (str ("sin diagnósticos")) descL

/-- The keep/drop decision of filter_alerts for one alert
(alert_filters.py lines 239-282): whitelist first, then drop rules 1-5,
otherwise keep. -/
def keepAlert (alerta : Alerta) (historia : Historia) : Bool :=
  if WHITELIST_ALERT_TYPES.contains alerta.tipo then true
  else if alerta.tipo = str ("evaluacion_incompleta") then false
  else if is_signos_vitales_alert_in_cmo alerta historia then false
  else if is_administrative_alert alerta then false
  else if is_covered_in_consolidated alerta historia then false
  else if is_invalid_for_exam_especifico alerta historia then false
  else true

/-- filter_alerts (alert_filters.py lines 210-289). -/
def filter_alerts (alertas : List Alerta) (historia : Historia) : List Alerta :=
  alertas.filter (fun a => keepAlert a historia)

/-! ## first sanity examples (kept as anonymous examples, not claim theorems) -/

example :
    merge_diagnosticos
      [{ tipo_documento_fuente := str ("hc_completa"), fecha_emo := none, tipo_emo := none,
         signos_vitales := none,
         diagnosticos := [⟨some (str ("M54.5")), some (str ("lumbago")), none, some (mkRat 1 2)⟩,
                          ⟨some (str ("M54.5")), some (str ("lumbago cronico")), none, some (mkRat 9 10)⟩],
         antecedentes := [], examenes := [], recomendaciones := [],
         aptitud_laboral := none, restricciones_especificas := none, alertas_validacion := [] }] =
    [⟨some (str ("M54.5")), some (str ("lumbago cronico")), none, some (mkRat 9 10)⟩] := by
  decide

/-! ## Dict-machinery lemmas -/

section MergeByLemmas

variable {E : Type}
variable (keyOf : E → Option Str) (combine : E → E → E)

/-- The entries of the stream carrying key `k` (in order). -/
def valsWith (k : Str) (l : List E) : List E :=
  l.filter (fun e => keyOf e = some k)

/-- Left fold of `combine` over a value stream. -/
def combineRun (x : E) (l : List E) : E := l.foldl combine x

/-- Left fold of `combine` over a value stream, starting from an optional
stored value. -/
def combineRunO : Option E → List E → Option E
  | none, [] => none
  | none, v :: t => some (combineRun combine v t)
  | some x, l => some (combineRun combine x l)

/-- The keys of the stream (in order, skipped entries omitted). -/
def entryKeys (l : List E) : List Str := l.filterMap keyOf

@[simp] theorem keysOf_nil : keysOf ([] : List (Str × E)) = [] := rfl

@[simp] theorem keysOf_cons (p : Str × E) (t : List (Str × E)) :
    keysOf (p :: t) = p.1 :: keysOf t := rfl

theorem alookup_upsert (s : List (Str × E)) (k : Str) (v : E) (k' : Str) :
    alookup (upsert combine s k v) k' =
      if k' = k then
        (match alookup s k with
         | none => some v
         | some w => some (combine w v))
      else alookup s k' := by
  induction s with
  | nil =>
      by_cases h : k' = k
      · subst h; simp [upsert, alookup]
      · have h' : ¬ k = k' := fun hh => h hh.symm
        simp [upsert, alookup, h, h']
  | cons p t ih =>
      obtain ⟨k₀, v₀⟩ := p
      by_cases h0 : k₀ = k
      · subst h0
        by_cases h : k' = k₀
        · subst h; simp [upsert, alookup]
        · have h' : ¬ k₀ = k' := fun hh => h hh.symm
          simp [upsert, alookup, h, h']
      · by_cases h : k₀ = k'
        · subst h
          simp [upsert, alookup, h0]
        · simp [upsert, alookup, h0, h, ih]

theorem keysOf_upsert_mem (s : List (Str × E)) (k : Str) (v : E)
    (h : k ∈ keysOf s) : keysOf (upsert combine s k v) = keysOf s := by
  induction s with
  | nil => simp at h
  | cons p t ih =>
      obtain ⟨k₀, v₀⟩ := p
      by_cases h0 : k₀ = k
      · simp [upsert, h0]
      · have ht : k ∈ keysOf t := by
          rcases List.mem_cons.mp h with h1 | h1
          · exact absurd h1.symm h0
          · exact h1
        simp [upsert, h0, ih ht]

theorem keysOf_upsert_notMem (s : List (Str × E)) (k : Str) (v : E)
    (h : k ∉ keysOf s) : keysOf (upsert combine s k v) = keysOf s ++ [k] := by
  induction s with
  | nil => simp [upsert]
  | cons p t ih =>
      obtain ⟨k₀, v₀⟩ := p
      have h0 : ¬ k₀ = k := fun hh => h (by simp [hh])
      have ht : k ∉ keysOf t := fun hh => h (by simp [hh])
      simp [upsert, h0, ih ht]

theorem mem_keysOf_upsert (s : List (Str × E)) (k : Str) (v : E) :
    k ∈ keysOf (upsert combine s k v) := by
  by_cases h : k ∈ keysOf s
  · rw [keysOf_upsert_mem combine s k v h]; exact h
  · rw [keysOf_upsert_notMem combine s k v h]; simp

theorem alookup_eq_none_iff (s : List (Str × E)) (k : Str) :
    alookup s k = none ↔ k ∉ keysOf s := by
  induction s with
  | nil => simp [alookup]
  | cons p t ih =>
      obtain ⟨k₀, v₀⟩ := p
      by_cases h0 : k₀ = k
      · subst h0; simp [alookup]
      · have h0' : ¬ k = k₀ := fun hh => h0 hh.symm
        simp [alookup, h0, h0', ih]

theorem combineRunO_some (x : E) (l : List E) :
    combineRunO combine (some x) l = some (combineRun combine x l) := by
  cases l <;> rfl

theorem alookup_foldl (l : List E) (s : List (Str × E)) (k : Str) :
    alookup (l.foldl (mergeStep keyOf combine) s) k =
      combineRunO combine (alookup s k) (valsWith keyOf k l) := by
  induction l generalizing s with
  | nil =>
      cases h : alookup s k <;> simp [valsWith, combineRunO, h, combineRun]
  | cons e t ih =>
      rw [List.foldl_cons, ih]
      cases hk : keyOf e with
      | none =>
          have hne : ¬ keyOf e = some k := by simp [hk]
          simp [mergeStep, hk, valsWith, hne]
      | some k₀ =>
          by_cases hkk : k₀ = k
          · subst hkk
            have hlook := alookup_upsert combine s k₀ e k₀
            simp only [if_pos rfl] at hlook
            have hval : valsWith keyOf k₀ (e :: t) = e :: valsWith keyOf k₀ t := by
              simp [valsWith, hk]
            simp only [mergeStep, hk, hlook, hval]
            cases hs : alookup s k₀ with
            | none => simp [combineRunO, combineRun]
            | some w => simp [combineRunO, combineRun]
          · have hkn : ¬ k = k₀ := fun hh => hkk hh.symm
            have hlook := alookup_upsert combine s k₀ e k
            rw [if_neg hkn] at hlook
            have hval : valsWith keyOf k (e :: t) = valsWith keyOf k t := by
              simp [valsWith, hk, hkk]
            simp [mergeStep, hk, hlook, hval]

end MergeByLemmas

section MergeByKeys

variable {E : Type}
variable (keyOf : E → Option Str) (combine : E → E → E)

/-- The previously unseen keys the stream will append, in order. -/
def newKeys : List Str → List E → List Str
  | _, [] => []
  | ks, e :: t =>
    match keyOf e with
    | none => newKeys ks t
    | some k => if k ∈ ks then newKeys ks t else k :: newKeys (ks ++ [k]) t

theorem keysOf_foldl (l : List E) (s : List (Str × E)) :
    keysOf (l.foldl (mergeStep keyOf combine) s) =
      keysOf s ++ newKeys keyOf (keysOf s) l := by
  induction l generalizing s with
  | nil => simp [newKeys]
  | cons e t ih =>
      rw [List.foldl_cons, ih]
      cases hk : keyOf e with
      | none => simp [mergeStep, hk, newKeys]
      | some k =>
          by_cases hmem : k ∈ keysOf s
          · simp [mergeStep, hk, newKeys, hmem, keysOf_upsert_mem combine s k e hmem]
          · simp [mergeStep, hk, newKeys, hmem, keysOf_upsert_notMem combine s k e hmem]

theorem newKeys_eq_nil (l : List E) (ks : List Str)
    (h : ∀ k ∈ entryKeys keyOf l, k ∈ ks) : newKeys keyOf ks l = [] := by
  induction l generalizing ks with
  | nil => simp [newKeys]
  | cons e t ih =>
      cases hk : keyOf e with
      | none =>
          simp only [newKeys, hk]
          refine ih ks (fun k hkk => h k ?_)
          simp [entryKeys, List.filterMap_cons, hk]
          simpa [entryKeys] using hkk
      | some k₀ =>
          have hk₀ : k₀ ∈ ks := h k₀ (by simp [entryKeys, List.filterMap_cons, hk])
          simp only [newKeys, hk, if_pos hk₀]
          refine ih ks (fun k hkk => h k ?_)
          simp [entryKeys, List.filterMap_cons, hk]
          right; simpa [entryKeys] using hkk

theorem mem_keysOf_step (s : List (Str × E)) (e : E) (k : Str)
    (h : k ∈ keysOf s) : k ∈ keysOf (mergeStep keyOf combine s e) := by
  cases hk : keyOf e with
  | none => simpa [mergeStep, hk] using h
  | some k₀ =>
      by_cases hmem : k₀ ∈ keysOf s
      · simpa [mergeStep, hk, keysOf_upsert_mem combine s k₀ e hmem] using h
      · simp [mergeStep, hk, keysOf_upsert_notMem combine s k₀ e hmem]
        exact Or.inl h

theorem mem_keysOf_foldl_of_mem (l : List E) (s : List (Str × E)) (k : Str)
    (h : k ∈ keysOf s) : k ∈ keysOf (l.foldl (mergeStep keyOf combine) s) := by
  induction l generalizing s with
  | nil => simpa using h
  | cons e t ih => exact ih _ (mem_keysOf_step keyOf combine s e k h)

theorem entryKeys_mem_foldl (l : List E) (s : List (Str × E)) (k : Str)
    (h : k ∈ entryKeys keyOf l) :
    k ∈ keysOf (l.foldl (mergeStep keyOf combine) s) := by
  induction l generalizing s with
  | nil => simp [entryKeys] at h
  | cons e t ih =>
      rw [List.foldl_cons]
      cases hk : keyOf e with
      | none =>
          refine ih _ ?_
          simpa [entryKeys, List.filterMap_cons, hk] using h
      | some k₀ =>
          rcases (by simpa [entryKeys, List.filterMap_cons, hk] using h : k = k₀ ∨ k ∈ entryKeys keyOf t) with h1 | h1
          · subst h1
            refine mem_keysOf_foldl_of_mem keyOf combine t _ k ?_
            simpa [mergeStep, hk] using mem_keysOf_upsert combine s k e
          · exact ih _ h1

theorem nodup_keysOf_step (s : List (Str × E)) (e : E)
    (h : (keysOf s).Nodup) : (keysOf (mergeStep keyOf combine s e)).Nodup := by
  cases hk : keyOf e with
  | none => simpa [mergeStep, hk] using h
  | some k₀ =>
      by_cases hmem : k₀ ∈ keysOf s
      · simpa [mergeStep, hk, keysOf_upsert_mem combine s k₀ e hmem] using h
      · rw [mergeStep]
        simp only [hk]
        rw [keysOf_upsert_notMem combine s k₀ e hmem]
        simpa [List.nodup_append] using ⟨h, hmem⟩

theorem nodup_keysOf_foldl (l : List E) (s : List (Str × E))
    (h : (keysOf s).Nodup) : (keysOf (l.foldl (mergeStep keyOf combine) s)).Nodup := by
  induction l generalizing s with
  | nil => simpa using h
  | cons e t ih => exact ih _ (nodup_keysOf_step keyOf combine s e h)

theorem alookup_eq_none_of_notMem (s : List (Str × E)) (k : Str)
    (h : k ∉ keysOf s) : alookup s k = none :=
  (alookup_eq_none_iff s k).mpr h

/-- Two association lists with the same ordered, duplicate-free key list and
the same lookup function are equal. -/
theorem alist_ext (s : List (Str × E)) :
    ∀ t : List (Str × E), keysOf s = keysOf t → (keysOf s).Nodup →
    (∀ k, alookup s k = alookup t k) → s = t := by
  induction s with
  | nil =>
      intro t hk _ _
      cases t with
      | nil => rfl
      | cons p t' =>
          rw [keysOf_nil, keysOf_cons] at hk
          exact absurd hk.symm (List.cons_ne_nil _ _)
  | cons p s' ih =>
      intro t hk hnd hl
      obtain ⟨k, v⟩ := p
      cases t with
      | nil =>
          rw [keysOf_nil, keysOf_cons] at hk
          exact absurd hk (List.cons_ne_nil _ _)
      | cons q t' =>
          obtain ⟨k₂, w⟩ := q
          rw [keysOf_cons, keysOf_cons] at hk
          have hkk : k = k₂ := (List.cons.injEq _ _ _ _ ▸ hk).1
          have hkt : keysOf s' = keysOf t' := (List.cons.injEq _ _ _ _ ▸ hk).2
          subst hkk
          have hv : v = w := by
            have h0 := hl k
            simpa [alookup] using h0
          subst hv
          rw [keysOf_cons] at hnd
          have hknot : k ∉ keysOf s' := (List.nodup_cons.mp hnd).1
          have hknott : k ∉ keysOf t' := hkt ▸ hknot
          have htail : ∀ k0, alookup s' k0 = alookup t' k0 := by
            intro k0
            by_cases hk0 : k0 = k
            · subst hk0
              rw [alookup_eq_none_of_notMem s' k0 hknot,
                  alookup_eq_none_of_notMem t' k0 hknott]
            · have h0 := hl k0
              have hne : ¬ k = k0 := fun hh => hk0 hh.symm
              simpa [alookup, hne] using h0
          rw [ih t' hkt (List.nodup_cons.mp hnd).2 htail]

end MergeByKeys

section MergeByValues

variable {E : Type}
variable (keyOf : E → Option Str) (combine : E → E → E)

/-- Every stored value is tagged with its own key, provided `combine` returns
one of its arguments with the shared key. -/
theorem valOk_foldl
    (hcomb : ∀ a b k, keyOf a = some k → keyOf b = some k → keyOf (combine a b) = some k)
    (l : List E) :
    ∀ s : List (Str × E), (∀ p ∈ s, keyOf p.2 = some p.1) →
    ∀ p ∈ l.foldl (mergeStep keyOf combine) s, keyOf p.2 = some p.1 := by
  have hupsert : ∀ (s : List (Str × E)) (k : Str) (v : E),
      keyOf v = some k → (∀ p ∈ s, keyOf p.2 = some p.1) →
      ∀ p ∈ upsert combine s k v, keyOf p.2 = some p.1 := by
    intro s k v hv
    induction s with
    | nil =>
        intro _ p hp
        have hp1 : p = (k, v) := by simpa [upsert] using hp
        subst hp1
        simpa using hv
    | cons q t ih =>
        intro hs p hp
        obtain ⟨k₀, v₀⟩ := q
        by_cases h0 : k₀ = k
        · subst h0
          rw [upsert, if_pos rfl] at hp
          rcases List.mem_cons.mp hp with h1 | h1
          · subst h1
            exact hcomb v₀ v k₀ (hs (k₀, v₀) (List.mem_cons_self _ _)) hv
          · exact hs _ (List.mem_cons_of_mem _ h1)
        · rw [upsert, if_neg h0] at hp
          rcases List.mem_cons.mp hp with h1 | h1
          · subst h1
            exact hs (k₀, v₀) (List.mem_cons_self _ _)
          · exact ih (fun q hq => hs q (List.mem_cons_of_mem _ hq)) p h1
  induction l with
  | nil => intro s hs; exact hs
  | cons e t ih =>
      intro s hs
      rw [List.foldl_cons]
      refine ih _ ?_
      intro p hp
      cases hk : keyOf e with
      | none =>
          simp only [mergeStep, hk] at hp
          exact hs p hp
      | some k =>
          simp only [mergeStep, hk] at hp
          exact hupsert s k e hk hs p hp

/-- A property holding of every keyed input entry and preserved by `combine`
holds of every merged value. -/
theorem mergeVals_pred (P : E → Prop)
    (hkey : ∀ e k, keyOf e = some k → P e)
    (hcomb : ∀ a b, P a → P b → P (combine a b))
    (l : List E) :
    ∀ v ∈ mergeVals keyOf combine l, P v := by
  have hupsert : ∀ (s : List (Str × E)) (k : Str) (v : E),
      P v → (∀ p ∈ s, P p.2) → ∀ p ∈ upsert combine s k v, P p.2 := by
    intro s k v hv
    induction s with
    | nil =>
        intro _ p hp
        have hp1 : p = (k, v) := by simpa [upsert] using hp
        subst hp1
        simpa using hv
    | cons q t ih =>
        intro hs p hp
        obtain ⟨k₀, v₀⟩ := q
        by_cases h0 : k₀ = k
        · subst h0
          rw [upsert, if_pos rfl] at hp
          rcases List.mem_cons.mp hp with h1 | h1
          · subst h1
            exact hcomb v₀ v (hs (k₀, v₀) (List.mem_cons_self _ _)) hv
          · exact hs _ (List.mem_cons_of_mem _ h1)
        · rw [upsert, if_neg h0] at hp
          rcases List.mem_cons.mp hp with h1 | h1
          · subst h1
            exact hs (k₀, v₀) (List.mem_cons_self _ _)
          · exact ih (fun q hq => hs q (List.mem_cons_of_mem _ hq)) p h1
  have hfold : ∀ (l : List E) (s : List (Str × E)), (∀ p ∈ s, P p.2) →
      ∀ p ∈ l.foldl (mergeStep keyOf combine) s, P p.2 := by
    intro l
    induction l with
    | nil => intro s hs; exact hs
    | cons e t ih =>
        intro s hs
        rw [List.foldl_cons]
        refine ih _ ?_
        intro p hp
        cases hk : keyOf e with
        | none =>
            simp only [mergeStep, hk] at hp
            exact hs p hp
        | some k =>
            simp only [mergeStep, hk] at hp
            exact hupsert s k e (hkey e k hk) hs p hp
  intro v hv
  obtain ⟨p, hp, hpv⟩ := List.mem_map.mp hv
  exact hpv ▸ hfold l [] (by simp) p hp

/-- `z` absorbs `v`: combining with `v` changes nothing. -/
def Dominates (z v : E) : Prop := combine z v = z

/-- Dominance of a fixed element survives further combining. -/
theorem dominates_combineRun
    (hpres : ∀ z w v, Dominates combine z v → Dominates combine (combine z w) v) :
    ∀ (l : List E) (z v : E), Dominates combine z v →
      Dominates combine (combineRun combine z l) v := by
  intro l
  induction l with
  | nil => intro z v h; exact h
  | cons a t ih => intro z v h; exact ih _ v (hpres z a v h)

/-- The result of a combine run absorbs its seed and every element it saw. -/
theorem combineRun_dominates
    (hstep1 : ∀ a b, Dominates combine (combine a b) a)
    (hstep2 : ∀ a b, Dominates combine (combine a b) b)
    (hpres : ∀ z w v, Dominates combine z v → Dominates combine (combine z w) v)
    (hrefl : ∀ a, Dominates combine a a) :
    ∀ (l : List E) (x v : E), (v = x ∨ v ∈ l) →
      Dominates combine (combineRun combine x l) v := by
  intro l
  induction l with
  | nil =>
      intro x v hv
      rcases hv with h | h
      · subst h; exact hrefl v
      · simp at h
  | cons a t ih =>
      intro x v hv
      have hrun : combineRun combine x (a :: t) = combineRun combine (combine x a) t := rfl
      rw [hrun]
      rcases hv with h | h
      · subst h
        exact dominates_combineRun combine hpres t (combine v a) v (hstep1 v a)
      · rcases List.mem_cons.mp h with h1 | h1
        · subst h1
          exact dominates_combineRun combine hpres t (combine x v) v (hstep2 x v)
        · exact ih (combine x a) v (Or.inr h1)

/-- A run over elements the seed already absorbs returns the seed. -/
theorem combineRun_absorbed (l : List E) (x : E)
    (h : ∀ v ∈ l, Dominates combine x v) : combineRun combine x l = x := by
  induction l with
  | nil => rfl
  | cons a t ih =>
      have ha : combine x a = x := h a (by simp)
      have hrun : combineRun combine x (a :: t) = combineRun combine (combine x a) t := rfl
      rw [hrun, ha]
      exact ih (fun v hv => h v (List.mem_cons_of_mem _ hv))

/-- Replaying the same value stream over its own combine result changes
nothing (for dominance-respecting combines). -/
theorem combineRunO_replay
    (hstep1 : ∀ a b, Dominates combine (combine a b) a)
    (hstep2 : ∀ a b, Dominates combine (combine a b) b)
    (hpres : ∀ z w v, Dominates combine z v → Dominates combine (combine z w) v)
    (hrefl : ∀ a, Dominates combine a a) :
    ∀ (a : Option E) (vs : List E),
      combineRunO combine (combineRunO combine a vs) vs = combineRunO combine a vs := by
  intro a vs
  cases a with
  | some x =>
      rw [combineRunO_some, combineRunO_some]
      exact congrArg some (combineRun_absorbed combine vs _
        (fun v hv => combineRun_dominates combine hstep1 hstep2 hpres hrefl vs x v (Or.inr hv)))
  | none =>
      cases vs with
      | nil => rfl
      | cons v t =>
          have h1 : combineRunO combine none (v :: t) = some (combineRun combine v t) := rfl
          rw [h1, combineRunO_some]
          have h2 : combineRun combine (combineRun combine v t) (v :: t)
              = combineRun combine (combine (combineRun combine v t) v) t := rfl
          have hdomv : combine (combineRun combine v t) v = combineRun combine v t :=
            combineRun_dominates combine hstep1 hstep2 hpres hrefl t v v (Or.inl rfl)
          have h3 : combineRun combine (combineRun combine v t) t = combineRun combine v t :=
            combineRun_absorbed combine t _
              (fun w hw => combineRun_dominates combine hstep1 hstep2 hpres hrefl t v w (Or.inr hw))
          rw [h2, hdomv, h3]

/-- Last-write-wins combine: a run returns the last element (or the seed). -/
theorem combineRun_lww (l : List E) :
    ∀ x : E, combineRun (fun _ b => b) x l = l.getLastD x := by
  induction l with
  | nil => intro x; rfl
  | cons a t ih =>
      intro x
      have hrun : combineRun (fun (_ b : E) => b) x (a :: t)
          = combineRun (fun (_ b : E) => b) a t := rfl
      rw [hrun, ih a, List.getLastD_cons]

/-- Replay stability for last-write-wins. -/
theorem combineRunO_replay_lww :
    ∀ (a : Option E) (vs : List E),
      combineRunO (fun (_ b : E) => b) (combineRunO (fun (_ b : E) => b) a vs) vs
        = combineRunO (fun (_ b : E) => b) a vs := by
  intro a vs
  cases a with
  | some x =>
      rw [combineRunO_some, combineRunO_some]
      rw [combineRun_lww, combineRun_lww]
      cases vs with
      | nil => rfl
      | cons v t => rw [List.getLastD_cons, List.getLastD_cons]
  | none =>
      cases vs with
      | nil => rfl
      | cons v t =>
          have h1 : combineRunO (fun (_ b : E) => b) none (v :: t)
              = some (combineRun (fun (_ b : E) => b) v t) := rfl
          rw [h1, combineRunO_some]
          rw [combineRun_lww, combineRun_lww, List.getLastD_cons]

end MergeByValues

section MergeByReplay

variable {E : Type}
variable (keyOf : E → Option Str) (combine : E → E → E)

/-- Folding a stream over its own merge result is a no-op, provided replaying
any key-class value stream over its own combine result is a no-op. -/
theorem foldl_mergeEntries_self
    (hrepl : ∀ (a : Option E) (vs : List E),
      combineRunO combine (combineRunO combine a vs) vs = combineRunO combine a vs)
    (l : List E) :
    l.foldl (mergeStep keyOf combine) (mergeEntries keyOf combine l)
      = mergeEntries keyOf combine l := by
  apply alist_ext
  · rw [keysOf_foldl]
    have hsub : ∀ k ∈ entryKeys keyOf l, k ∈ keysOf (mergeEntries keyOf combine l) :=
      fun k hk => entryKeys_mem_foldl keyOf combine l [] k hk
    rw [newKeys_eq_nil keyOf l _ hsub, List.append_nil]
  · rw [keysOf_foldl]
    have hsub : ∀ k ∈ entryKeys keyOf l, k ∈ keysOf (mergeEntries keyOf combine l) :=
      fun k hk => entryKeys_mem_foldl keyOf combine l [] k hk
    rw [newKeys_eq_nil keyOf l _ hsub, List.append_nil]
    exact nodup_keysOf_foldl keyOf combine l [] (by simp)
  · intro k
    have h1 : alookup (mergeEntries keyOf combine l) k
        = combineRunO combine none (valsWith keyOf k l) := by
      rw [mergeEntries, alookup_foldl]
      rfl
    rw [alookup_foldl, h1]
    exact hrepl _ _

/-- The merge of a doubled stream equals the merge of the stream. -/
theorem mergeEntries_doubled
    (hrepl : ∀ (a : Option E) (vs : List E),
      combineRunO combine (combineRunO combine a vs) vs = combineRunO combine a vs)
    (l : List E) :
    mergeEntries keyOf combine (l ++ l) = mergeEntries keyOf combine l := by
  rw [mergeEntries, List.foldl_append]
  exact foldl_mergeEntries_self keyOf combine hrepl l

end MergeByReplay

/-! ## Dominance facts for the concrete combine policies -/

theorem diagCombine_key (a b : Diagnostico) (k : Str)
    (ha : diagKey a = some k) (hb : diagKey b = some k) :
    diagKey (diagCombine a b) = some k := by
  unfold diagCombine
  split <;> assumption

theorem diagCombine_dom_iff (z v : Diagnostico) :
    diagCombine z v = z ↔ ¬ (confianzaOf v > confianzaOf z) := by
  constructor
  · intro h hgt
    unfold diagCombine at h
    rw [if_pos hgt] at h
    subst h
    exact lt_irrefl _ hgt
  · intro h
    unfold diagCombine
    rw [if_neg h]

theorem diagCombine_step1 (a b : Diagnostico) :
    Dominates diagCombine (diagCombine a b) a := by
  unfold Dominates
  rw [diagCombine_dom_iff]
  unfold diagCombine
  by_cases h : confianzaOf b > confianzaOf a
  · rw [if_pos h]; exact lt_asymm h
  · rw [if_neg h]; exact lt_irrefl _

theorem diagCombine_step2 (a b : Diagnostico) :
    Dominates diagCombine (diagCombine a b) b := by
  unfold Dominates
  rw [diagCombine_dom_iff]
  unfold diagCombine
  by_cases h : confianzaOf b > confianzaOf a
  · rw [if_pos h]; exact lt_irrefl _
  · rw [if_neg h]; exact h

theorem diagCombine_pres (z w v : Diagnostico)
    (h : Dominates diagCombine z v) : Dominates diagCombine (diagCombine z w) v := by
  unfold Dominates at *
  rw [diagCombine_dom_iff] at h ⊢
  unfold diagCombine
  by_cases hw : confianzaOf w > confianzaOf z
  · rw [if_pos hw]
    intro hv
    exact h (lt_trans hw hv)
  · rw [if_neg hw]; exact h

theorem diagCombine_refl (a : Diagnostico) : Dominates diagCombine a a := by
  unfold Dominates
  rw [diagCombine_dom_iff]
  exact lt_irrefl _

/-- Replay stability of the confidence rule. -/
theorem diag_replay (a : Option Diagnostico) (vs : List Diagnostico) :
    combineRunO diagCombine (combineRunO diagCombine a vs) vs
      = combineRunO diagCombine a vs :=
  combineRunO_replay diagCombine diagCombine_step1 diagCombine_step2
    diagCombine_pres diagCombine_refl a vs

theorem antCombine_dom_iff (z v : Antecedente) :
    antCombine z v = z ↔
      ¬ (fechaApx v ≠ [] ∧ (fechaApx z = [] ∨ fechaApx z < fechaApx v)) := by
  constructor
  · intro h hcond
    unfold antCombine at h
    rw [if_pos hcond] at h
    subst h
    rcases hcond with ⟨hne, hor⟩
    rcases hor with h1 | h1
    · exact hne h1
    · exact lt_irrefl _ h1
  · intro h
    unfold antCombine
    rw [if_neg h]

theorem antCombine_step1 (a b : Antecedente) :
    Dominates antCombine (antCombine a b) a := by
  unfold Dominates
  by_cases hc : fechaApx b ≠ [] ∧ (fechaApx a = [] ∨ fechaApx a < fechaApx b)
  · have hab : antCombine a b = b := by unfold antCombine; rw [if_pos hc]
    rw [hab, antCombine_dom_iff]
    rintro ⟨hane, hor⟩
    rcases hc with ⟨hbne, hor'⟩
    have h1 : fechaApx b < fechaApx a := by
      rcases hor with h | h
      · exact absurd h hbne
      · exact h
    have h2 : fechaApx a < fechaApx b := by
      rcases hor' with h | h
      · exact absurd h hane
      · exact h
    exact lt_asymm h1 h2
  · have hab : antCombine a b = a := by unfold antCombine; rw [if_neg hc]
    rw [hab, antCombine_dom_iff]
    rintro ⟨hane, hor⟩
    rcases hor with h | h
    · exact hane h
    · exact lt_irrefl _ h

theorem antCombine_step2 (a b : Antecedente) :
    Dominates antCombine (antCombine a b) b := by
  unfold Dominates
  by_cases hc : fechaApx b ≠ [] ∧ (fechaApx a = [] ∨ fechaApx a < fechaApx b)
  · have hab : antCombine a b = b := by unfold antCombine; rw [if_pos hc]
    rw [hab, antCombine_dom_iff]
    rintro ⟨hbne, hor⟩
    rcases hor with h | h
    · exact hbne h
    · exact lt_irrefl _ h
  · have hab : antCombine a b = a := by unfold antCombine; rw [if_neg hc]
    rw [hab, antCombine_dom_iff]
    exact hc

theorem antCombine_pres (z w v : Antecedente)
    (h : Dominates antCombine z v) : Dominates antCombine (antCombine z w) v := by
  unfold Dominates at *
  rw [antCombine_dom_iff] at h
  by_cases hc : fechaApx w ≠ [] ∧ (fechaApx z = [] ∨ fechaApx z < fechaApx w)
  · have hzw : antCombine z w = w := by unfold antCombine; rw [if_pos hc]
    rw [hzw, antCombine_dom_iff]
    rintro ⟨hvne, hor⟩
    rcases hc with ⟨hwne, hor'⟩
    have h1 : fechaApx w < fechaApx v := by
      rcases hor with hh | hh
      · exact absurd hh hwne
      · exact hh
    have h2 : fechaApx z ≠ [] ∧ ¬ fechaApx z < fechaApx v := by
      constructor
      · intro hz0
        exact h ⟨hvne, Or.inl hz0⟩
      · intro hlt
        exact h ⟨hvne, Or.inr hlt⟩
    have h3 : fechaApx z < fechaApx w := by
      rcases hor' with hh | hh
      · exact absurd hh h2.1
      · exact hh
    exact h2.2 (lt_trans h3 h1)
  · have hzw : antCombine z w = z := by unfold antCombine; rw [if_neg hc]
    rw [hzw, antCombine_dom_iff]
    exact h

theorem antCombine_refl (a : Antecedente) : Dominates antCombine a a := by
  unfold Dominates
  rw [antCombine_dom_iff]
  rintro ⟨hne, hor⟩
  rcases hor with h | h
  · exact hne h
  · exact lt_irrefl _ h

/-- Replay stability of the approximate-date rule. -/
theorem ant_replay (a : Option Antecedente) (vs : List Antecedente) :
    combineRunO antCombine (combineRunO antCombine a vs) vs
      = combineRunO antCombine a vs :=
  combineRunO_replay antCombine antCombine_step1 antCombine_step2
    antCombine_pres antCombine_refl a vs

/-- Replay stability of last-write-wins on exams. -/
theorem exam_replay (a : Option Examen) (vs : List Examen) :
    combineRunO examCombine (combineRunO examCombine a vs) vs
      = combineRunO examCombine a vs := by
  have h : examCombine = (fun (_ b : Examen) => b) := rfl
  rw [h]
  exact combineRunO_replay_lww a vs

/-! ## Claims about the consolidate_person.py merges -/

/-- Claim C9: merging a record set containing one record twice produces the
same consolidated diagnoses, antecedents and exams as merging the record
once — duplicate input is absorbed by the keyed unions, not doubled. -/
theorem claim_C9_merge_idempotent (A : Historia) :
    merge_diagnosticos [A, A] = merge_diagnosticos [A]
    ∧ merge_antecedentes [A, A] = merge_antecedentes [A]
    ∧ merge_examenes [A, A] = merge_examenes [A] := by
  have hflat2 : ∀ (f : Historia → List Diagnostico), ([A, A].map f).flatten = f A ++ f A := by
    intro f; simp
  refine ⟨?_, ?_, ?_⟩
  · show mergeVals diagKey diagCombine ([A, A].map Historia.diagnosticos).flatten
        = mergeVals diagKey diagCombine ([A].map Historia.diagnosticos).flatten
    have h2 : ([A, A].map Historia.diagnosticos).flatten
        = A.diagnosticos ++ A.diagnosticos := by simp
    have h1 : ([A].map Historia.diagnosticos).flatten = A.diagnosticos := by simp
    rw [mergeVals, mergeVals, h1, h2,
        mergeEntries_doubled diagKey diagCombine diag_replay A.diagnosticos]
  · show mergeVals antKey antCombine ([A, A].map Historia.antecedentes).flatten
        = mergeVals antKey antCombine ([A].map Historia.antecedentes).flatten
    have h2 : ([A, A].map Historia.antecedentes).flatten
        = A.antecedentes ++ A.antecedentes := by simp
    have h1 : ([A].map Historia.antecedentes).flatten = A.antecedentes := by simp
    rw [mergeVals, mergeVals, h1, h2,
        mergeEntries_doubled antKey antCombine ant_replay A.antecedentes]
  · show sortExamenes (mergeVals examKey examCombine ([A, A].map Historia.examenes).flatten)
        = sortExamenes (mergeVals examKey examCombine ([A].map Historia.examenes).flatten)
    have h2 : ([A, A].map Historia.examenes).flatten = A.examenes ++ A.examenes := by simp
    have h1 : ([A].map Historia.examenes).flatten = A.examenes := by simp
    rw [mergeVals, mergeVals, h1, h2,
        mergeEntries_doubled examKey examCombine exam_replay A.examenes]

/-- Claim C10, second half: a diagnosis entry without a usable code never
appears among the merged values (every merged value carries a key). -/
theorem diag_no_key_not_in_merge (d : Diagnostico) (hd : diagKey d = none)
    (hs : List Historia) : d ∉ merge_diagnosticos hs := by
  intro hmem
  obtain ⟨p, hp, hpd⟩ := List.mem_map.mp hmem
  have hval := valOk_foldl diagKey diagCombine diagCombine_key
    ((hs.map Historia.diagnosticos).flatten) [] (by intro p hp; simp at hp) p hp
  rw [hpd, hd] at hval
  exact Option.noConfusion hval

/-- Claim C10: a diagnosis entry whose code key is missing or empty is
silently skipped by merge_diagnosticos — deleting it from the input leaves
the merge result unchanged, and it never appears in any merge output. -/
theorem claim_C10_empty_code_skipped (hs1 hs2 : List Historia) (A : Historia)
    (pre post : List Diagnostico) (d : Diagnostico)
    (hd : d.codigo_cie10 = none ∨ d.codigo_cie10 = some []) :
    merge_diagnosticos (hs1 ++ ({ A with diagnosticos := pre ++ d :: post } :: hs2))
      = merge_diagnosticos (hs1 ++ ({ A with diagnosticos := pre ++ post } :: hs2))
    ∧ ∀ hs : List Historia, d ∉ merge_diagnosticos hs := by
  have hdk : diagKey d = none := by
    rcases hd with h | h <;> simp [diagKey, h]
  constructor
  · have hflat : ∀ X : List Diagnostico,
        ((hs1 ++ ({ A with diagnosticos := X } :: hs2)).map Historia.diagnosticos).flatten
          = (hs1.map Historia.diagnosticos).flatten
            ++ (X ++ (hs2.map Historia.diagnosticos).flatten) := by
      intro X; simp
    show mergeVals diagKey diagCombine _ = mergeVals diagKey diagCombine _
    rw [mergeVals, mergeVals, mergeEntries, mergeEntries,
        hflat (pre ++ d :: post), hflat (pre ++ post)]
    rw [List.foldl_append, List.foldl_append, List.foldl_append, List.foldl_append,
        List.foldl_append, List.foldl_append]
    rw [List.foldl_cons]
    have hstep : ∀ s : List (Str × Diagnostico),
        mergeStep diagKey diagCombine s d = s := by
      intro s; simp [mergeStep, hdk]
    rw [hstep]
  · exact diag_no_key_not_in_merge d hdk

/-- Witness for C10 at a concrete input: an entry with an empty code string
vanishes from the merge. -/
theorem claim_C10_witness :
    ((⟨some [], some (str ("sin codigo")), none, some 1⟩ : Diagnostico).codigo_cie10 = none
      ∨ (⟨some [], some (str ("sin codigo")), none, some 1⟩ : Diagnostico).codigo_cie10 = some [])
    ∧ merge_diagnosticos
        [{ tipo_documento_fuente := str ("hc_completa"), fecha_emo := none, tipo_emo := none,
           signos_vitales := none,
           diagnosticos := [⟨some [], some (str ("sin codigo")), none, some 1⟩],
           antecedentes := [], examenes := [], recomendaciones := [],
           aptitud_laboral := none, restricciones_especificas := none,
           alertas_validacion := [] }]
      = merge_diagnosticos
        [{ tipo_documento_fuente := str ("hc_completa"), fecha_emo := none, tipo_emo := none,
           signos_vitales := none, diagnosticos := [],
           antecedentes := [], examenes := [], recomendaciones := [],
           aptitud_laboral := none, restricciones_especificas := none,
           alertas_validacion := [] }]
    ∧ (⟨some [], some (str ("sin codigo")), none, some 1⟩ : Diagnostico)
        ∉ merge_diagnosticos
        [{ tipo_documento_fuente := str ("hc_completa"), fecha_emo := none, tipo_emo := none,
           signos_vitales := none,
           diagnosticos := [⟨some [], some (str ("sin codigo")), none, some 1⟩],
           antecedentes := [], examenes := [], recomendaciones := [],
           aptitud_laboral := none, restricciones_especificas := none,
           alertas_validacion := [] }] := by
  refine ⟨Or.inr rfl, ?_, ?_⟩
  · exact (claim_C10_empty_code_skipped [] []
      { tipo_documento_fuente := str ("hc_completa"), fecha_emo := none, tipo_emo := none,
        signos_vitales := none, diagnosticos := [],
        antecedentes := [], examenes := [], recomendaciones := [],
        aptitud_laboral := none, restricciones_especificas := none,
        alertas_validacion := [] }
      [] [] ⟨some [], some (str ("sin codigo")), none, some 1⟩ (Or.inr rfl)).1
  · exact (claim_C10_empty_code_skipped [] []
      { tipo_documento_fuente := str ("hc_completa"), fecha_emo := none, tipo_emo := none,
        signos_vitales := none, diagnosticos := [],
        antecedentes := [], examenes := [], recomendaciones := [],
        aptitud_laboral := none, restricciones_especificas := none,
        alertas_validacion := [] }
      [] [] ⟨some [], some (str ("sin codigo")), none, some 1⟩ (Or.inr rfl)).2 _

/-- The selection rule as the spec words it: walk the entries contributing a
given code in input order, keep the incumbent unless the newcomer has strictly
higher confidence (so ties keep the first-seen entry). -/
def keepHighestConfidenceFirstSeen (l : List Diagnostico) : Option Diagnostico :=
  l.foldl
    (fun acc d =>
      match acc with
      | none => some d
      | some kept => if confianzaOf d > confianzaOf kept then some d else some kept)
    none

theorem keepHighest_eq_combineRunO (l : List Diagnostico) :
    keepHighestConfidenceFirstSeen l = combineRunO diagCombine none l := by
  have haux : ∀ (t : List Diagnostico) (x : Diagnostico),
      t.foldl
        (fun acc d =>
          match acc with
          | none => some d
          | some kept => if confianzaOf d > confianzaOf kept then some d else some kept)
        (some x) = some (combineRun diagCombine x t) := by
    intro t
    induction t with
    | nil => intro x; rfl
    | cons d t' ih =>
        intro x
        rw [List.foldl_cons]
        have hstep :
            (match (some x : Option Diagnostico) with
             | none => some d
             | some kept => if confianzaOf d > confianzaOf kept then some d else some kept)
              = some (diagCombine x d) := by
          show (if confianzaOf d > confianzaOf x then some d else some x)
              = some (diagCombine x d)
          unfold diagCombine
          by_cases h : confianzaOf d > confianzaOf x
          · rw [if_pos h, if_pos h]
          · rw [if_neg h, if_neg h]
        rw [hstep, ih]
        rfl
  cases l with
  | nil => rfl
  | cons v t =>
      rw [keepHighestConfidenceFirstSeen, List.foldl_cons]
      have h0 :
          (match (none : Option Diagnostico) with
           | none => some v
           | some kept => if confianzaOf v > confianzaOf kept then some v else some kept)
            = some v := rfl
      rw [h0, haux t v]
      rfl

/-- On an association list whose values carry their own keys without
duplicates, searching the value list for a given key is the dict lookup. -/
theorem find?_map_snd_eq_alookup (s : List (Str × Diagnostico))
    (hval : ∀ p ∈ s, diagKey p.2 = some p.1) (k : Str) :
    (s.map Prod.snd).find? (fun d => diagKey d = some k) = alookup s k := by
  induction s with
  | nil => rfl
  | cons p t ih =>
      obtain ⟨k₀, v₀⟩ := p
      have hv₀ : diagKey v₀ = some k₀ := hval (k₀, v₀) (List.mem_cons_self _ _)
      by_cases h : k₀ = k
      · subst h
        have hpred : (fun d => decide (diagKey d = some k₀)) v₀ = true := by
          simp [hv₀]
        simp [List.find?, alookup, hpred, hv₀]
      · have hpred : (fun d => decide (diagKey d = some k)) v₀ = false := by
          simp [hv₀, h]
        have ht := ih (fun q hq => hval q (List.mem_cons_of_mem _ hq))
        simp [List.find?, alookup, hpred, h, ht]

/-- Claim C3: the consolidated diagnosis list is unique by code, and for every
code the kept entry is the fold of the "strictly higher confidence wins, ties
keep first-seen" rule over the input entries carrying that code. -/
theorem claim_C3_diagnosis_unique_by_code (hs : List Historia) :
    ((merge_diagnosticos hs).Pairwise
      (fun d1 d2 => d1.codigo_cie10 ≠ d2.codigo_cie10))
    ∧ ∀ code : Str,
        (merge_diagnosticos hs).find? (fun d => diagKey d = some code)
          = keepHighestConfidenceFirstSeen
              (valsWith diagKey code ((hs.map Historia.diagnosticos).flatten)) := by
  have hval := valOk_foldl diagKey diagCombine diagCombine_key
    ((hs.map Historia.diagnosticos).flatten) [] (by intro p hp; simp at hp)
  have hnd := nodup_keysOf_foldl diagKey diagCombine
    ((hs.map Historia.diagnosticos).flatten) [] (by simp)
  constructor
  · have h1 : (keysOf (mergeEntries diagKey diagCombine
        ((hs.map Historia.diagnosticos).flatten))).Nodup := hnd
    rw [keysOf] at h1
    have h2 := (List.pairwise_map).mp h1
    show ((mergeEntries diagKey diagCombine
        ((hs.map Historia.diagnosticos).flatten)).map Prod.snd).Pairwise _
    rw [List.pairwise_map]
    refine h2.imp_of_mem ?_
    intro p q hp hq hne hcod
    have hkp := hval p hp
    have hkq := hval q hq
    rw [diagKey, hcod] at hkp
    rw [diagKey] at hkq
    rw [hkp] at hkq
    exact hne (Option.some.inj hkq)
  · intro code
    have h1 := find?_map_snd_eq_alookup
      (mergeEntries diagKey diagCombine ((hs.map Historia.diagnosticos).flatten)) hval code
    show ((mergeEntries diagKey diagCombine
        ((hs.map Historia.diagnosticos).flatten)).map Prod.snd).find? _ = _
    rw [h1, mergeEntries, alookup_foldl, keepHighest_eq_combineRunO]
    rfl

/-! ## Claims about alert_filters.py -/

/-- A minimal base record used in concrete witnesses. -/
def histBase : Historia :=
  { tipo_documento_fuente := str ("hc_completa"), fecha_emo := none, tipo_emo := none,
    signos_vitales := none, diagnosticos := [], antecedentes := [], examenes := [],
    recomendaciones := [], aptitud_laboral := none, restricciones_especificas := none,
    alertas_validacion := [] }

/-- Claim C4: every alert of kind inconsistencia_diagnostica or
formato_incorrecto present before filtering is still present after filtering —
the whitelist is consulted before any drop rule. -/
theorem claim_C4_whitelist_invariant (alertas : List Alerta) (historia : Historia)
    (a : Alerta) (hmem : a ∈ alertas)
    (hty : a.tipo = str ("inconsistencia_diagnostica")
      ∨ a.tipo = str ("formato_incorrecto")) :
    a ∈ filter_alerts alertas historia := by
  have hkeep : keepAlert a historia = true := by
    have hwl : WHITELIST_ALERT_TYPES.contains a.tipo = true := by
      rcases hty with h | h <;> rw [h] <;> decide
    unfold keepAlert
    rw [hwl]
    rfl
  exact List.mem_filter.mpr ⟨hmem, hkeep⟩

/-- Witness for C4: a concrete inconsistencia_diagnostica alert survives the
filter on a concrete record. -/
theorem claim_C4_witness :
    (⟨str ("inconsistencia_diagnostica"), str ("baja"), str ("diagnosticos"),
       str ("Diagnostico sin examen que lo soporte"), str ("Revisar")⟩ : Alerta)
      ∈ filter_alerts
        [⟨str ("inconsistencia_diagnostica"), str ("baja"), str ("diagnosticos"),
          str ("Diagnostico sin examen que lo soporte"), str ("Revisar")⟩]
        histBase :=
  claim_C4_whitelist_invariant _ histBase _ (by decide) (Or.inl (by decide))

/-- Claim C8, both directions.  Forward: nothing that survives the filter is a
dato_faltante alert whose description or affected field mentions an
administrative field name as a standalone whole word.  Backward: a
dato_faltante alert with no whole-word administrative match is kept, provided
none of the other, independent drop rules of filter_alerts applies to it. -/
theorem claim_C8_admin_word_boundary :
    (∀ (alertas : List Alerta) (historia : Historia) (a : Alerta),
        a ∈ filter_alerts alertas historia →
        a.tipo = str ("dato_faltante") →
        adminSearch a.descripcion = false ∧ adminSearch a.campo_afectado = false)
    ∧ (∀ (alertas : List Alerta) (historia : Historia) (a : Alerta),
        a ∈ alertas →
        a.tipo = str ("dato_faltante") →
        adminSearch a.descripcion = false →
        adminSearch a.campo_afectado = false →
        is_signos_vitales_alert_in_cmo a historia = false →
        is_covered_in_consolidated a historia = false →
        is_invalid_for_exam_especifico a historia = false →
        a ∈ filter_alerts alertas historia) := by
  constructor
  · intro alertas historia a hmem hty
    have hkeep : keepAlert a historia = true := (List.mem_filter.mp hmem).2
    unfold keepAlert at hkeep
    rw [hty] at hkeep
    have hwl : WHITELIST_ALERT_TYPES.contains (str ("dato_faltante")) = false := by decide
    rw [hwl] at hkeep
    have hne : (str ("dato_faltante") = str ("evaluacion_incompleta")) = False := by
      simp [str]
    simp only [Bool.false_eq_true, if_false, hne] at hkeep
    have hadm : is_administrative_alert a = false := by
      cases hadm : is_administrative_alert a with
      | false => rfl
      | true =>
          rw [hadm] at hkeep
          simp at hkeep
    rw [is_administrative_alert, hty] at hadm
    simp at hadm
    exact ⟨hadm.1, hadm.2⟩
  · intro alertas historia a hmem hty hd hc hsv hcov hinv
    have hkeep : keepAlert a historia = true := by
      unfold keepAlert
      rw [hty]
      have hwl : WHITELIST_ALERT_TYPES.contains (str ("dato_faltante")) = false := by decide
      rw [hwl]
      have hadm : is_administrative_alert a = false := by
        rw [is_administrative_alert, hty]
        simp [hd, hc]
      have hne2 : (str ("dato_faltante") = str ("evaluacion_incompleta")) = False := by
        simp [str]
      simp [hsv, hcov, hinv, hadm, hne2]
    exact List.mem_filter.mpr ⟨hmem, hkeep⟩

/-- Witness for C8.  A dato_faltante alert whose description contains the
standalone word "empresa" is removed; one where "empresa" occurs only inside
the unrelated word "empresarial" is kept. -/
theorem claim_C8_witness :
    ((⟨str ("dato_faltante"), str ("media"), str ("datos_empleado"),
        str ("Falta el campo empresa del trabajador"), str ("Completar")⟩ : Alerta)
      ∉ filter_alerts
        [⟨str ("dato_faltante"), str ("media"), str ("datos_empleado"),
          str ("Falta el campo empresa del trabajador"), str ("Completar")⟩]
        histBase)
    ∧ ((⟨str ("dato_faltante"), str ("media"), str ("observaciones"),
        str ("Falta el detalle empresarial del contrato"), str ("Completar")⟩ : Alerta)
      ∈ filter_alerts
        [⟨str ("dato_faltante"), str ("media"), str ("observaciones"),
          str ("Falta el detalle empresarial del contrato"), str ("Completar")⟩]
        histBase) := by
  constructor
  · intro hmem
    have h := claim_C8_admin_word_boundary.1 _ _ _ hmem (by decide)
    have hadm : adminSearch
        (str ("Falta el campo empresa del trabajador")) = true := by decide
    rw [h.1] at hadm
    exact Bool.noConfusion hadm
  · exact claim_C8_admin_word_boundary.2 _ _ _ (by decide) (by decide)
      (by decide) (by decide) (by decide) (by decide) (by decide)

/-! ## backend/app/services/processor_service.py : exam relevance and merge -/

/-- _es_examen_relevante (processor_service.py lines 256-300). -/
def es_examen_relevante (exam : Examen) : Bool :=
  let interpretacion := strip (lower (exam.interpretacion.getD []))
  let hallazgos := strip (exam.hallazgos_clave.getD [])
  let resultado := strip (exam.resultado.getD [])
  if interpretacion = str ("alterado") ∨ interpretacion = str ("critico")
      ∨ interpretacion = str ("patologico") ∨ interpretacion = str ("anormal") then
    true
  else if hallazgos ≠ [] ∧ lower hallazgos ∉
      [str ("normal"), str ("sin hallazgos"), str ("sin alteraciones")] then
    true
  else if resultado ≠ [] ∧ lower resultado ∉
      [str ("normal"), str ("sin alteraciones")] then
    true
  else if interpretacion = [] ∧ (hallazgos ≠ [] ∨ resultado ≠ []) then
    true
  else if interpretacion = str ("normal")
      ∧ (hallazgos = [] ∨ lower hallazgos ∈
          [str ("normal"), str ("sin hallazgos"), str ("sin alteraciones"),
           str ("dentro de limites normales")])
      ∧ (resultado = [] ∨ lower resultado ∈
          [str ("normal"), str ("sin alteraciones"),
           str ("dentro de limites normales")]) then
    false
  else
    true

/-- Key of an exam in the backend merge (processor_service.py lines 309-322):
skipped when the type is empty or the exam is not clinically relevant. -/
def psExamKey (e : Examen) : Option Str :=
  let tipo := e.tipo.getD []
  let fecha := e.fecha_realizacion.getD []
  if tipo = [] then none
  else if es_examen_relevante e = false then none
  else some (tipo ++ [':'] ++ fecha)

/-- _merge_examenes of the backend service (processor_service.py lines
302-334): filtered union keyed by type and date, last-write-wins, sorted by
date descending. -/
def ps_merge_examenes (historias : List Historia) : List Examen :=
  sortExamenes (mergeVals psExamKey examCombine (historias.map Historia.examenes).flatten)

/-- Claim C6.  First: every exam in the consolidated list satisfies the
relevance predicate.  Second: the predicate excludes an exam exactly when its
interpretation is "normal" and its key findings and result are each empty or a
normal-equivalent phrase; in every other case (including every ambiguous one)
the exam is included. -/
theorem claim_C6_exam_relevance :
    (∀ (historias : List Historia) (e : Examen),
        e ∈ ps_merge_examenes historias → es_examen_relevante e = true)
    ∧ (∀ e : Examen,
        es_examen_relevante e = false ↔
          (strip (lower (e.interpretacion.getD [])) = str ("normal")
           ∧ (strip (e.hallazgos_clave.getD []) = []
              ∨ lower (strip (e.hallazgos_clave.getD []))
                  ∈ [str ("normal"), str ("sin hallazgos"), str ("sin alteraciones")])
           ∧ (strip (e.resultado.getD []) = []
              ∨ lower (strip (e.resultado.getD []))
                  ∈ [str ("normal"), str ("sin alteraciones")]))) := by
  constructor
  · intro historias e hmem
    have hmem2 : e ∈ mergeVals psExamKey examCombine
        ((historias.map Historia.examenes).flatten) := by
      rw [ps_merge_examenes] at hmem
      exact (mem_sortExamenes _ _).mp hmem
    refine mergeVals_pred psExamKey examCombine
      (fun e => es_examen_relevante e = true) ?_ ?_ _ e hmem2
    · intro e k hk
      rw [psExamKey] at hk
      by_cases h1 : e.tipo.getD [] = []
      · rw [if_pos h1] at hk; exact Option.noConfusion hk
      · rw [if_neg h1] at hk
        by_cases h2 : es_examen_relevante e = false
        · rw [if_pos h2] at hk; exact Option.noConfusion hk
        · exact eq_true_of_ne_false h2
    · intro a b _ hb
      exact hb
  · intro e
    unfold es_examen_relevante
    dsimp only
    constructor
    · intro h
      split_ifs at h with h1 h2 h3 h4 h5
      · refine ⟨h5.1, ?_, ?_⟩
        · by_cases hH : strip (e.hallazgos_clave.getD []) = []
          · exact Or.inl hH
          · right
            by_cases hHm : lower (strip (e.hallazgos_clave.getD []))
                ∈ [str ("normal"), str ("sin hallazgos"), str ("sin alteraciones")]
            · exact hHm
            · exact absurd ⟨hH, hHm⟩ h2
        · by_cases hR : strip (e.resultado.getD []) = []
          · exact Or.inl hR
          · right
            by_cases hRm : lower (strip (e.resultado.getD []))
                ∈ [str ("normal"), str ("sin alteraciones")]
            · exact hRm
            · exact absurd ⟨hR, hRm⟩ h3
    · rintro ⟨hI, hH, hR⟩
      have hsubH : [str ("normal"), str ("sin hallazgos"), str ("sin alteraciones")]
          ⊆ [str ("normal"), str ("sin hallazgos"), str ("sin alteraciones"),
             str ("dentro de limites normales")] := by decide
      have hsubR : [str ("normal"), str ("sin alteraciones")]
          ⊆ [str ("normal"), str ("sin alteraciones"),
             str ("dentro de limites normales")] := by decide
      split_ifs with h1 h2 h3 h4 h5
      · exfalso
        rw [hI] at h1
        revert h1
        decide
      · exact absurd hH (by
          rcases h2 with ⟨h2a, h2b⟩
          push_neg
          exact ⟨fun hc => absurd hc h2a, h2b⟩)
      · exact absurd hR (by
          rcases h3 with ⟨h3a, h3b⟩
          push_neg
          exact ⟨fun hc => absurd hc h3a, h3b⟩)
      · exfalso
        rw [hI] at h4
        exact absurd h4.1 (by decide)
      · rfl
      · exfalso
        refine h5 ⟨hI, ?_, ?_⟩
        · rcases hH with hc | hc
          · exact Or.inl hc
          · exact Or.inr (hsubH hc)
        · rcases hR with hc | hc
          · exact Or.inl hc
          · exact Or.inr (hsubR hc)

/-- Witness for C6 at the spec scenarios: an exam with interpretation normal,
empty findings and result "normal" is excluded from the consolidated list; an
exam with interpretation normal but an incidental finding is included (and the
kept exam satisfies the relevance predicate via the claim theorem). -/
theorem claim_C6_witness :
    ps_merge_examenes
      [{ histBase with examenes :=
          [⟨some (str ("laboratorio")), some (str ("hemograma")),
            some (str ("2024-01-01")), some (str ("normal")), some [],
            some (str ("normal"))⟩] }] = []
    ∧ (⟨some (str ("imagenologia")), some (str ("rx torax")),
        some (str ("2024-01-02")), none,
        some (str ("incidental 4mm nodule noted")), some (str ("normal"))⟩ : Examen)
      ∈ ps_merge_examenes
        [{ histBase with examenes :=
            [⟨some (str ("imagenologia")), some (str ("rx torax")),
              some (str ("2024-01-02")), none,
              some (str ("incidental 4mm nodule noted")), some (str ("normal"))⟩] }]
    ∧ es_examen_relevante
        ⟨some (str ("imagenologia")), some (str ("rx torax")),
         some (str ("2024-01-02")), none,
         some (str ("incidental 4mm nodule noted")), some (str ("normal"))⟩ = true :=
  ⟨by decide, by decide,
   claim_C6_exam_relevance.1
     [{ histBase with examenes :=
         [⟨some (str ("imagenologia")), some (str ("rx torax")),
           some (str ("2024-01-02")), none,
           some (str ("incidental 4mm nodule noted")), some (str ("normal"))⟩] }]
     _ (by decide)⟩

/-! ## src/src/processors/claude_processor.py : restriction sanitation

The source patterns are regexes built from literal words joined by one or more
whitespace characters, with alternations and optional groups; each pattern is
expanded here into the finitely many literal-and-whitespace sequences it
denotes, which matches re.search semantics exactly because every alternative
branch is listed. -/

/-- A token of an expanded pattern: a literal chunk or one-or-more
whitespace. -/
inductive PTok where
  | lit : Str → PTok
  | ws : PTok
deriving DecidableEq

/-- Match a token sequence at the head of a string. -/
def matchToks : List PTok → Str → Bool
  | [], _ => true
  | PTok.lit w :: ts, s => w.isPrefixOf s && matchToks ts (s.drop w.length)
  | PTok.ws :: ts, s =>
      let n := (s.takeWhile isSpaceChar).length
      decide (n ≠ 0) && matchToks ts (s.drop n)

/-- re.search: match the token sequence at any position. -/
def searchToks (p : List PTok) : Str → Bool
  | [] => matchToks p []
  | c :: t => matchToks p (c :: t) || searchToks p t

/-- Build a pattern of literal chunks joined by one-or-more whitespace. -/
def pws (parts : List String) : List PTok :=
  (parts.map (fun p => PTok.lit (str p))).intersperse PTok.ws

/-- The protective-equipment patterns of reclassify_epp_as_recommendations
(claude_processor.py lines 180-190), with alternations and optional groups
expanded. -/
def epp_patterns : List (List PTok) :=
  [pws ["uso de", "lentes"], pws ["uso de", "gafas"], pws ["uso de", "anteojos"],
   pws ["uso de", "protector", "auditivo"], pws ["uso de", "protectores", "auditivo"],
   pws ["uso de", "elementos", "de", "proteccion"],
   pws ["uso de", "elementos", "de", "protección"],
   pws ["uso de", "equipos", "de", "proteccion"],
   pws ["uso de", "equipos", "de", "protección"],
   pws ["uso de", "epp"], pws ["uso de", "guantes"], pws ["uso de", "casco"],
   pws ["uso de", "mascarilla"], pws ["uso de", "protector", "solar"],
   pws ["uso", "permanente", "de"], pws ["uso", "ocasional", "de"]]

/-- The genuine activity-limitation patterns (claude_processor.py lines
198-211), expanded the same way. -/
def restricciones_reales_patterns : List (List PTok) :=
  [pws ["no", "levantar"], pws ["no", "cargar"],
   pws ["no", "trabajar", "en", "altura"],
   pws ["evitar", "exposicion", "a"], pws ["evitar", "exposición", "a"],
   pws ["no", "conducir"], pws ["no", "trabajar", "en", "turno"],
   pws ["no", "realizar", "movimientos"], pws ["no", "permanecer", "de", "pie"],
   pws ["limitacion", "para"], pws ["limitación", "para"],
   pws ["restriccion", "para"], pws ["restricción", "para"],
   pws ["evitar", "movimientos"], pws ["evitar", "actividades"]]

/-- `any(re.search(p, text) for p in epp_patterns)` on the lower-cased text. -/
def has_epp (s : Str) : Bool := epp_patterns.any (fun p => searchToks p s)

/-- `any(re.search(p, text) for p in restricciones_reales_patterns)`. -/
def has_real_restrictions (s : Str) : Bool :=
  restricciones_reales_patterns.any (fun p => searchToks p s)

/-- reclassify_epp_as_recommendations (claude_processor.py lines 159-226):
clear restricciones_especificas when it matches a protective-equipment pattern
and no genuine activity-limitation pattern. -/
def reclassify_epp_as_recommendations (historia : Historia) : Historia :=
  match historia.restricciones_especificas with
  | none => historia
  | some restricciones =>
      if restricciones = [] then historia
      else
        let rl := lower restricciones
        if has_epp rl ∧ ¬ (has_real_restrictions rl = true) then
          { historia with restricciones_especificas := none }
        else historia

/-- Claim C7: restriction text matching a protective-equipment pattern and no
genuine activity-limitation pattern is cleared to null; whenever an
activity-limitation pattern is present the record is left unchanged. -/
theorem claim_C7_restriction_sanitation (historia : Historia) (r : Str)
    (hr : historia.restricciones_especificas = some r) :
    (has_epp (lower r) = true → has_real_restrictions (lower r) = false →
      (reclassify_epp_as_recommendations historia).restricciones_especificas = none
        ∧ reclassify_epp_as_recommendations historia
            = { historia with restricciones_especificas := none })
    ∧ (has_real_restrictions (lower r) = true →
        reclassify_epp_as_recommendations historia = historia) := by
  constructor
  · intro hepp hreal
    have hne : r ≠ [] := by
      intro h0
      subst h0
      rw [show lower [] = [] from rfl] at hepp
      exact Bool.noConfusion ((by decide : has_epp [] = false) ▸ hepp)
    have hres : reclassify_epp_as_recommendations historia
        = { historia with restricciones_especificas := none } := by
      unfold reclassify_epp_as_recommendations
      rw [hr]
      dsimp only
      rw [if_neg hne, if_pos ⟨hepp, by rw [hreal]; exact Bool.noConfusion⟩]
    exact ⟨by rw [hres], hres⟩
  · intro hreal
    unfold reclassify_epp_as_recommendations
    rw [hr]
    dsimp only
    by_cases h0 : r = []
    · rw [if_pos h0]
    · rw [if_neg h0, if_neg ?_]
      rintro ⟨_, hcon⟩
      exact hcon hreal

/-- Concrete record whose restriction text is only protective-equipment
usage. -/
def histSoloEpp : Historia :=
  { histBase with restricciones_especificas := some (str ("uso de protector auditivo")) }

/-- Concrete record whose restriction text carries a genuine limitation. -/
def histConRestriccion : Historia :=
  { histBase with restricciones_especificas := some (str ("no levantar mas de 10kg; uso de protector auditivo")) }

/-- Witness for C7 at the spec scenarios (the Spanish source text of the
scenario strings): "uso de protector auditivo" alone is cleared to null;
"no levantar mas de 10kg; uso de protector auditivo" is preserved. -/
theorem claim_C7_witness :
    (reclassify_epp_as_recommendations histSoloEpp).restricciones_especificas = none
    ∧ reclassify_epp_as_recommendations histConRestriccion = histConRestriccion :=
  ⟨((claim_C7_restriction_sanitation histSoloEpp
        (str ("uso de protector auditivo")) rfl).1 (by decide) (by decide)).1,
   (claim_C7_restriction_sanitation histConRestriccion
        (str ("no levantar mas de 10kg; uso de protector auditivo")) rfl).2 (by decide)⟩

/-! ## backend/app/services/sve_service.py

The surveillance-program catalog file (config/empresas/sve_catalog.json) is
data outside the source tree, so the catalog is a parameter here; the index
construction over it follows _catalog_indexes.  Python set iteration order is
unspecified; the variant set of a code is modelled as a list in insertion
order (the code itself first), which is irrelevant to the claims proved below
because they only concern codes with no catalog match at all. -/

structure SveDx where
  codigo : Option Str
  diagnostico : Option Str
deriving DecidableEq

structure SveEntry where
  sve_id : Option Str
  nombre : Option Str
  descripcion : Option Str
  dx_cie10 : List SveDx
deriving DecidableEq

def DEFAULT_SPECIALIST : Str := str ("Medicina General / EPS")

/-- SVE_SPECIALISTS (sve_service.py lines 18-29). -/
def SVE_SPECIALISTS : List (Str × Str) :=
  [(str ("sve-visual"), str ("Oftalmología")),
   (str ("sve-auditivo"), str ("Otorrinolaringología")),
   (str ("sve-voz"), str ("Fonoaudiología / Otorrinolaringología")),
   (str ("sve-osteomuscular"), str ("Fisiatría / Ortopedia")),
   (str ("sve-dme"), str ("Medicina Física y Rehabilitación")),
   (str ("sve-cardiovascular"), str ("Medicina Interna / Cardiología")),
   (str ("sve-biologico"), str ("Medicina Laboral / Epidemiología")),
   (str ("sve-psicosocial"), str ("Psicología / Psiquiatría")),
   (str ("sve-quimico"), str ("Toxicología / Medicina Interna")),
   (str ("sve-btx"), str ("Toxicología"))]

/-- Replace the separator characters normalized to dashes by _normalize_token
(sve_service.py line 40). -/
def sepToDash (c : Char) : Char :=
  if c = ' ' ∨ c = '_' ∨ c = '/' ∨ c = '.' ∨ c = ',' then '-' else c

/-- Collapse every run of dashes to a single dash, i.e. the fixpoint of
`text.replace("--", "-")` (sve_service.py lines 42-43). -/
def collapseDashesAux : Bool → Str → Str
  | _, [] => []
  | prevDash, c :: t =>
      if c = '-' then
        if prevDash then collapseDashesAux true t
        else '-' :: collapseDashesAux true t
      else c :: collapseDashesAux false t

def collapseDashes (s : Str) : Str := collapseDashesAux false s

/-- _normalize_token (sve_service.py lines 32-44). -/
def normalize_token (value : Option Str) : Str :=
  match value with
  | none => []
  | some v =>
      let text := lower (strip v)
      if text = [] then []
      else collapseDashes ((stripAccents text).map sepToDash)

/-- canonicalize_sve_id (sve_service.py lines 47-53). -/
def canonicalize_sve_id (value : Option Str) : Str :=
  let token := normalize_token value
  if token = [] then []
  else if (str ("sve-")).isPrefixOf token then token
  else str ("sve-") ++ token

/-- canonicalize_sve_tokens (sve_service.py lines 56-63). -/
def canonicalize_sve_tokens (value : Option Str) : List Str :=
  let canonical := canonicalize_sve_id value
  if canonical = [] then []
  else
    let tokens := if (str ("sve-")).isPrefixOf canonical
      then [canonical, canonical.drop 4] else [canonical]
    tokens.filter (fun t => t ≠ [])

/-- _code_variants (sve_service.py lines 66-81): the code, its dot-free form
and, when dotted, its base chapter (and the base chapter dot-free). -/
def code_variants (code : Str) : List Str :=
  if code = [] then []
  else
    let compact := code.filter (fun c => c ≠ '.')
    let vs := [code] ++ (if compact ≠ [] then [compact] else [])
    if ('.' : Char) ∈ code then
      let base := code.takeWhile (fun c => c ≠ '.')
      let baseCompact := base.filter (fun c => c ≠ '.')
      vs ++ (if base ≠ [] then
               [base] ++ (if baseCompact ≠ [] then [baseCompact] else [])
             else [])
    else vs

structure SveIdInfo where
  canonical_id : Str
  entry : SveEntry
deriving DecidableEq

structure SveCodeInfo where
  canonical_id : Str
  entry : SveEntry
  diagnostico : Str
deriving DecidableEq

/-- _catalog_indexes (sve_service.py lines 99-125): an identifier index and a
code index (the latter mapping every code variant to the list of catalog
entries carrying it, in insertion order). -/
def catalog_indexes (entries : List SveEntry) :
    List (Str × SveIdInfo) × List (Str × List SveCodeInfo) :=
  entries.foldl
    (fun acc entry =>
      let canonical := canonicalize_sve_id (pyOr entry.sve_id entry.nombre)
      if canonical = [] then acc
      else
        let tokens := canonicalize_sve_tokens entry.sve_id
          ++ canonicalize_sve_tokens entry.nombre ++ [canonical]
        let byId := tokens.foldl
          (fun m t => upsert (fun _ new => new) m t ⟨canonical, entry⟩) acc.1
        let byCode := entry.dx_cie10.foldl
          (fun m dx =>
            let code := upper (strip (dx.codigo.getD []))
            if code = [] then m
            else (code_variants code).foldl
              (fun m2 v => upsert (fun old new => old ++ new) m2 v
                [⟨canonical, entry, dx.diagnostico.getD []⟩]) m)
          acc.2
        (byId, byCode))
    ([], [])

structure SveAlerta where
  sve_target_id : Str
  nombre : Str
  descripcion : Str
  diagnosticos : List (Str × Str)
deriving DecidableEq

structure DerivGroup where
  sve_id : Str
  especialista : Str
  diagnosticos : List (Str × Str)
deriving DecidableEq

structure SveResult where
  alertas_sve : List SveAlerta
  derivar_eps : List DerivGroup
deriving DecidableEq

/-- Appending a diagnosis to an existing alert group
(`alertas.setdefault(...)` followed by `append`). -/
def alertaCombine (old new : SveAlerta) : SveAlerta :=
  { old with diagnosticos := old.diagnosticos ++ new.diagnosticos }

/-- Appending a diagnosis to an existing referral group (_derive_entry). -/
def derivCombine (old new : DerivGroup) : DerivGroup :=
  { old with diagnosticos := old.diagnosticos ++ new.diagnosticos }

/-- One iteration of the main loop of evaluate_sve (sve_service.py lines
159-209) over one raw diagnosis code. -/
def sve_process_code (code_map : List (Str × List SveCodeInfo))
    (empresa_canonicals : List Str)
    (st : List (Str × SveAlerta) × List (Str × DerivGroup)) (raw : Str) :
    List (Str × SveAlerta) × List (Str × DerivGroup) :=
  let code := upper (strip raw)
  if code = [] then st
  else
    let gathered :=
      (code_variants code).foldl
        (fun (p : List SveCodeInfo × List (Str × Str)) v =>
          ((alookup code_map v).getD []).foldl
            (fun (q : List SveCodeInfo × List (Str × Str)) info =>
              if (info.canonical_id, info.diagnostico) ∈ q.2 then q
              else (q.1 ++ [info], q.2 ++ [(info.canonical_id, info.diagnostico)]))
            p)
        (([], []) : List SveCodeInfo × List (Str × Str))
    let catalog_entries := gathered.1
    let inner :=
      catalog_entries.foldl
        (fun (q : List (Str × SveAlerta) × Bool) info =>
          if empresa_canonicals ≠ [] ∧ info.canonical_id ∉ empresa_canonicals then q
          else
            (upsert alertaCombine q.1 info.canonical_id
              ⟨info.canonical_id,
               (pyOr info.entry.nombre (some info.canonical_id)).getD [],
               (if optTruthy info.entry.descripcion then info.entry.descripcion.getD []
                else []),
               [(code, info.diagnostico)]⟩,
             true))
        (st.1, false)
    if inner.2 then (inner.1, st.2)
    else
      let target_id :=
        match catalog_entries with
        | [] => ([] : Str)
        | base :: _ => base.canonical_id
      let entry_nombre :=
        match catalog_entries with
        | [] => (none : Option Str)
        | base :: _ => base.entry.nombre
      let descripcion :=
        match catalog_entries with
        | [] => ([] : Str)
        | base :: _ => base.diagnostico
      let specialist :=
        if target_id ≠ [] then
          (pyOr (alookup SVE_SPECIALISTS target_id)
            (pyOr entry_nombre (some DEFAULT_SPECIALIST))).getD []
        else DEFAULT_SPECIALIST
      let key := if target_id ≠ [] then target_id else str ("general-") ++ specialist
      (inner.1,
       upsert derivCombine st.2 key ⟨target_id, specialist, [(code, descripcion)]⟩)

/-- evaluate_sve (sve_service.py lines 128-214), with the catalog passed as a
parameter. -/
def evaluate_sve (catalog : List SveEntry) (diagnosticos_cie10 : List Str)
    (empresa_sve_ids : List Str) : SveResult :=
  let idx := catalog_indexes catalog
  let empresa_canonicals : List Str :=
    empresa_sve_ids.foldl
      (fun acc raw =>
        (canonicalize_sve_tokens (some raw)).foldl
          (fun acc2 token =>
            match alookup idx.1 token with
            | some info =>
                if info.canonical_id ∈ acc2 then acc2 else acc2 ++ [info.canonical_id]
            | none => acc2)
          acc)
      []
  let final := diagnosticos_cie10.foldl (sve_process_code idx.2 empresa_canonicals)
    (([], []) : List (Str × SveAlerta) × List (Str × DerivGroup))
  ⟨final.1.map Prod.snd, final.2.map Prod.snd⟩

section UpsertPred

variable {V : Type}

theorem upsert_snd_pred (combine : V → V → V) (R : V → Prop)
    (hcomb : ∀ old new, R old → R new → R (combine old new))
    (s : List (Str × V)) (k : Str) (v : V)
    (hs : ∀ p ∈ s, R p.2) (hv : R v) :
    ∀ p ∈ upsert combine s k v, R p.2 := by
  induction s with
  | nil =>
      intro p hp
      have hp1 : p = (k, v) := by simpa [upsert] using hp
      subst hp1
      exact hv
  | cons q t ih =>
      intro p hp
      obtain ⟨k₀, v₀⟩ := q
      by_cases h0 : k₀ = k
      · subst h0
        rw [upsert, if_pos rfl] at hp
        rcases List.mem_cons.mp hp with h1 | h1
        · subst h1
          exact hcomb v₀ v (hs (k₀, v₀) (List.mem_cons_self _ _)) hv
        · exact hs _ (List.mem_cons_of_mem _ h1)
      · rw [upsert, if_neg h0] at hp
        rcases List.mem_cons.mp hp with h1 | h1
        · subst h1
          exact hs (k₀, v₀) (List.mem_cons_self _ _)
        · exact ih (fun q hq => hs q (List.mem_cons_of_mem _ hq)) p h1

theorem upsert_exists_pred (combine : V → V → V) (Q : V → Prop)
    (hcomb : ∀ old new, Q old → Q (combine old new))
    (s : List (Str × V)) (k : Str) (v : V)
    (h : ∃ p ∈ s, Q p.2) : ∃ p ∈ upsert combine s k v, Q p.2 := by
  induction s with
  | nil => obtain ⟨p, hp, _⟩ := h; simp at hp
  | cons q t ih =>
      obtain ⟨k₀, v₀⟩ := q
      obtain ⟨p, hp, hQ⟩ := h
      by_cases h0 : k₀ = k
      · subst h0
        rw [upsert, if_pos rfl]
        rcases List.mem_cons.mp hp with h1 | h1
        · subst h1
          exact ⟨(k₀, combine v₀ v), List.mem_cons_self _ _, hcomb _ _ hQ⟩
        · exact ⟨p, List.mem_cons_of_mem _ h1, hQ⟩
      · rw [upsert, if_neg h0]
        rcases List.mem_cons.mp hp with h1 | h1
        · subst h1
          exact ⟨(k₀, v₀), List.mem_cons_self _ _, hQ⟩
        · obtain ⟨p2, hp2, hQ2⟩ := ih ⟨p, h1, hQ⟩
          exact ⟨p2, List.mem_cons_of_mem _ hp2, hQ2⟩

theorem upsert_exists_intro (combine : V → V → V) (Q : V → Prop)
    (s : List (Str × V)) (k : Str) (v : V)
    (hv : Q v) (hcomb : ∀ old, Q (combine old v)) :
    ∃ p ∈ upsert combine s k v, Q p.2 := by
  induction s with
  | nil => exact ⟨(k, v), by simp [upsert], hv⟩
  | cons q t ih =>
      obtain ⟨k₀, v₀⟩ := q
      by_cases h0 : k₀ = k
      · subst h0
        rw [upsert, if_pos rfl]
        exact ⟨(k₀, combine v₀ v), List.mem_cons_self _ _, hcomb v₀⟩
      · rw [upsert, if_neg h0]
        obtain ⟨p, hp, hQ⟩ := ih
        exact ⟨p, List.mem_cons_of_mem _ hp, hQ⟩

end UpsertPred

/-- When every variant of a code misses the code index entirely, the
entry-gathering fold of evaluate_sve collects nothing. -/
theorem sve_gather_nil (code_map : List (Str × List SveCodeInfo)) (vs : List Str)
    (h : ∀ v ∈ vs, alookup code_map v = none) :
    ∀ p : List SveCodeInfo × List (Str × Str),
      vs.foldl
        (fun (p : List SveCodeInfo × List (Str × Str)) v =>
          ((alookup code_map v).getD []).foldl
            (fun (q : List SveCodeInfo × List (Str × Str)) info =>
              if (info.canonical_id, info.diagnostico) ∈ q.2 then q
              else (q.1 ++ [info], q.2 ++ [(info.canonical_id, info.diagnostico)]))
            p)
        p = p := by
  induction vs with
  | nil => intro p; rfl
  | cons v t ih =>
      intro p
      rw [List.foldl_cons, h v (List.mem_cons_self _ _)]
      exact ih (fun w hw => h w (List.mem_cons_of_mem _ hw)) p

/-- A diagnosis code none of whose variants appears in the code index takes
the not-matched path: the alert groups are untouched and the code is appended
to the default-specialist referral group. -/
theorem sve_process_code_no_match (code_map : List (Str × List SveCodeInfo))
    (empresa_canonicals : List Str)
    (st : List (Str × SveAlerta) × List (Str × DerivGroup)) (raw : Str)
    (hc : upper (strip raw) ≠ [])
    (h : ∀ v ∈ code_variants (upper (strip raw)), alookup code_map v = none) :
    sve_process_code code_map empresa_canonicals st raw
      = (st.1,
         upsert derivCombine st.2 (str ("general-") ++ DEFAULT_SPECIALIST)
           ⟨[], DEFAULT_SPECIALIST, [(upper (strip raw), [])]⟩) := by
  unfold sve_process_code
  dsimp only
  rw [if_neg hc, sve_gather_nil code_map _ h]
  rfl

/-- One step of evaluate_sve cannot introduce an alert diagnosis pair carrying
a code none of whose variants is in the code index. -/
theorem sve_step_alert_pairs (code_map : List (Str × List SveCodeInfo))
    (empresa_canonicals : List Str) (code0 : Str)
    (hnone : ∀ v ∈ code_variants code0, alookup code_map v = none)
    (st : List (Str × SveAlerta) × List (Str × DerivGroup)) (raw : Str)
    (hst : ∀ p ∈ st.1, ∀ q ∈ p.2.diagnosticos, q.1 ≠ code0) :
    ∀ p ∈ (sve_process_code code_map empresa_canonicals st raw).1,
      ∀ q ∈ p.2.diagnosticos, q.1 ≠ code0 := by
  by_cases hc : upper (strip raw) = []
  · unfold sve_process_code
    dsimp only
    rw [if_pos hc]
    exact hst
  · by_cases hcc : upper (strip raw) = code0
    · rw [sve_process_code_no_match code_map empresa_canonicals st raw hc (hcc ▸ hnone)]
      exact hst
    · unfold sve_process_code
      dsimp only
      rw [if_neg hc]
      have hinner : ∀ (entries : List SveCodeInfo)
          (q0 : List (Str × SveAlerta) × Bool),
          (∀ p ∈ q0.1, ∀ q ∈ p.2.diagnosticos, q.1 ≠ code0) →
          ∀ p ∈ (entries.foldl
              (fun (q : List (Str × SveAlerta) × Bool) info =>
                if empresa_canonicals ≠ [] ∧ info.canonical_id ∉ empresa_canonicals then q
                else
                  (upsert alertaCombine q.1 info.canonical_id
                    ⟨info.canonical_id,
                     (pyOr info.entry.nombre (some info.canonical_id)).getD [],
                     (if optTruthy info.entry.descripcion then info.entry.descripcion.getD []
                      else []),
                     [(upper (strip raw), info.diagnostico)]⟩,
                   true)) q0).1,
            ∀ q ∈ p.2.diagnosticos, q.1 ≠ code0 := by
        intro entries
        induction entries with
        | nil => intro q0 hq0; exact hq0
        | cons info t ih =>
            intro q0 hq0
            rw [List.foldl_cons]
            refine ih _ ?_
            by_cases hskip : empresa_canonicals ≠ [] ∧ info.canonical_id ∉ empresa_canonicals
            · rw [if_pos hskip]; exact hq0
            · rw [if_neg hskip]
              refine upsert_snd_pred alertaCombine
                (fun g => ∀ q ∈ g.diagnosticos, q.1 ≠ code0) ?_ q0.1 _ _ hq0 ?_
              · intro old new hold hnew
                intro q hq
                rcases List.mem_append.mp hq with h1 | h1
                · exact hold q h1
                · exact hnew q h1
              · intro q hq
                have hq1 : q = (upper (strip raw), info.diagnostico) := by simpa using hq
                rw [hq1]
                exact hcc
      split
      · exact hinner _ _ hst
      · exact hinner _ _ hst

/-- One step of evaluate_sve preserves the presence of a given diagnosis pair
in some referral group. -/
theorem sve_step_deriv_exists (code_map : List (Str × List SveCodeInfo))
    (empresa_canonicals : List Str) (code0 : Str)
    (st : List (Str × SveAlerta) × List (Str × DerivGroup)) (raw : Str)
    (hst : ∃ p ∈ st.2, (code0, ([] : Str)) ∈ p.2.diagnosticos) :
    ∃ p ∈ (sve_process_code code_map empresa_canonicals st raw).2,
      (code0, ([] : Str)) ∈ p.2.diagnosticos := by
  by_cases hc : upper (strip raw) = []
  · unfold sve_process_code
    dsimp only
    rw [if_pos hc]
    exact hst
  · unfold sve_process_code
    dsimp only
    rw [if_neg hc]
    split
    · exact hst
    · refine upsert_exists_pred derivCombine
        (fun g => (code0, ([] : Str)) ∈ g.diagnosticos) ?_ _ _ _ hst
      intro old new hold
      exact List.mem_append_left _ hold

/-- Fold versions of the two step lemmas. -/
theorem sve_foldl_alert_pairs (code_map : List (Str × List SveCodeInfo))
    (empresa_canonicals : List Str) (code0 : Str)
    (hnone : ∀ v ∈ code_variants code0, alookup code_map v = none)
    (l : List Str) :
    ∀ st, (∀ p ∈ st.1, ∀ q ∈ p.2.diagnosticos, q.1 ≠ code0) →
    ∀ p ∈ (l.foldl (sve_process_code code_map empresa_canonicals) st).1,
      ∀ q ∈ p.2.diagnosticos, q.1 ≠ code0 := by
  induction l with
  | nil => intro st hst; exact hst
  | cons raw t ih =>
      intro st hst
      rw [List.foldl_cons]
      exact ih _ (sve_step_alert_pairs code_map empresa_canonicals code0 hnone st raw hst)

theorem sve_foldl_deriv_exists (code_map : List (Str × List SveCodeInfo))
    (empresa_canonicals : List Str) (code0 : Str) (l : List Str) :
    ∀ st, (∃ p ∈ st.2, (code0, ([] : Str)) ∈ p.2.diagnosticos) →
    ∃ p ∈ (l.foldl (sve_process_code code_map empresa_canonicals) st).2,
      (code0, ([] : Str)) ∈ p.2.diagnosticos := by
  induction l with
  | nil => intro st hst; exact hst
  | cons raw t ih =>
      intro st hst
      rw [List.foldl_cons]
      exact ih _ (sve_step_deriv_exists code_map empresa_canonicals code0 st raw hst)

/-- Claim C5 as amended: a diagnosis code none of whose variants matches any
catalog entry contributes to no program alert and raises no error, but it IS
appended to a referral-candidate group (under the default specialist). -/
theorem claim_C5_amended (catalog : List SveEntry) (diags empresa : List Str)
    (raw : Str) (hmem : raw ∈ diags) (hc : upper (strip raw) ≠ [])
    (hnone : ∀ v ∈ code_variants (upper (strip raw)),
      alookup (catalog_indexes catalog).2 v = none) :
    (∀ g ∈ (evaluate_sve catalog diags empresa).alertas_sve,
        ∀ q ∈ g.diagnosticos, q.1 ≠ upper (strip raw))
    ∧ ∃ g ∈ (evaluate_sve catalog diags empresa).derivar_eps,
        (upper (strip raw), ([] : Str)) ∈ g.diagnosticos := by
  obtain ⟨l1, l2, hsplit⟩ := List.append_of_mem hmem
  unfold evaluate_sve
  dsimp only
  rw [hsplit, List.foldl_append, List.foldl_cons]
  constructor
  · intro g hg q hq
    obtain ⟨p, hp, hpg⟩ := List.mem_map.mp hg
    refine sve_foldl_alert_pairs _ _ _ hnone l2 _ ?_ p hp q (hpg ▸ hq)
    refine sve_step_alert_pairs _ _ _ hnone _ raw ?_
    refine sve_foldl_alert_pairs _ _ _ hnone l1 _ ?_
    intro p hp
    simp at hp
  · obtain ⟨p, hp, hQ⟩ :
        ∃ p ∈ ((l2.foldl (sve_process_code (catalog_indexes catalog).2
            (empresa.foldl
              (fun acc raw2 =>
                (canonicalize_sve_tokens (some raw2)).foldl
                  (fun acc2 token =>
                    match alookup (catalog_indexes catalog).1 token with
                    | some info =>
                        if info.canonical_id ∈ acc2 then acc2
                        else acc2 ++ [info.canonical_id]
                    | none => acc2)
                  acc)
              []))
          (sve_process_code (catalog_indexes catalog).2
            (empresa.foldl
              (fun acc raw2 =>
                (canonicalize_sve_tokens (some raw2)).foldl
                  (fun acc2 token =>
                    match alookup (catalog_indexes catalog).1 token with
                    | some info =>
                        if info.canonical_id ∈ acc2 then acc2
                        else acc2 ++ [info.canonical_id]
                    | none => acc2)
                  acc)
              [])
            (l1.foldl (sve_process_code (catalog_indexes catalog).2
              (empresa.foldl
                (fun acc raw2 =>
                  (canonicalize_sve_tokens (some raw2)).foldl
                    (fun acc2 token =>
                      match alookup (catalog_indexes catalog).1 token with
                      | some info =>
                          if info.canonical_id ∈ acc2 then acc2
                          else acc2 ++ [info.canonical_id]
                      | none => acc2)
                    acc)
                []))
              ([], [])) raw))).2,
          (upper (strip raw), ([] : Str)) ∈ p.2.diagnosticos := by
      refine sve_foldl_deriv_exists _ _ _ l2 _ ?_
      rw [sve_process_code_no_match _ _ _ raw hc hnone]
      refine upsert_exists_intro derivCombine
        (fun g => (upper (strip raw), ([] : Str)) ∈ g.diagnosticos) _ _ _ ?_ ?_
      · simp
      · intro old
        exact List.mem_append_right _ (by simp)
    exact ⟨p.2, List.mem_map_of_mem Prod.snd hp, hQ⟩

/-- Counterexample for C5 as stated: with any catalog not containing code
Z99.9 (here the empty catalog), the unmatched diagnosis Z99.9 is NOT ignored —
it produces a referral-candidate group under the default specialist, so it
does appear in one of the two output lists. -/
theorem claim_C5_counterexample :
    (evaluate_sve [] [str ("Z99.9")] []).alertas_sve = []
    ∧ (evaluate_sve [] [str ("Z99.9")] []).derivar_eps
        = [⟨[], DEFAULT_SPECIALIST, [(str ("Z99.9"), [])]⟩]
    ∧ (evaluate_sve [] [str ("Z99.9")] []).derivar_eps ≠ [] := by
  refine ⟨?_, ?_, ?_⟩ <;> decide

/-- Witness for the amended C5 at a concrete input. -/
theorem claim_C5_witness :
    (str ("Z99.9") ∈ [str ("Z99.9")])
    ∧ upper (strip (str ("Z99.9"))) ≠ []
    ∧ (∀ v ∈ code_variants (upper (strip (str ("Z99.9")))),
        alookup (catalog_indexes []).2 v = none)
    ∧ ((∀ g ∈ (evaluate_sve [] [str ("Z99.9")] []).alertas_sve,
          ∀ q ∈ g.diagnosticos, q.1 ≠ upper (strip (str ("Z99.9"))))
       ∧ ∃ g ∈ (evaluate_sve [] [str ("Z99.9")] []).derivar_eps,
           (upper (strip (str ("Z99.9"))), ([] : Str)) ∈ g.diagnosticos) :=
  ⟨by decide, by decide, by decide,
   claim_C5_amended [] [str ("Z99.9")] [] (str ("Z99.9"))
     (by decide) (by decide) (by decide)⟩

/-! ## src/src/processors/claude_processor.py : pre-validation of the dict

Alert descriptions keep the static prefix of the source f-strings; the
interpolated numeric or original values are elided. -/

/-- One range check of validate_signos_vitales (claude_processor.py lines
532-566): an out-of-range value is set to None and reported as a
high-severity valor_critico alert. -/
def checkVital (valor : Option ℚ) (minV maxV : ℚ) (campo nombre : Str) :
    Option ℚ × List Alerta :=
  match valor with
  | none => (none, [])
  | some v =>
      if v < minV ∨ v > maxV then
        (none,
         [⟨str ("valor_critico"), str ("alta"),
           str ("signos_vitales.") ++ campo,
           nombre ++ str (" fuera de rango clínico esperado"),
           str ("Verificar valor en documento original, probable error de transcripción")⟩])
      else (some v, [])

/-- validate_signos_vitales (claude_processor.py lines 490-568). -/
def validate_signos_vitales (historia : Historia) : Historia × List Alerta :=
  match historia.signos_vitales with
  | none => (historia, [])
  | some signos =>
      let r1 := checkVital signos.frecuencia_cardiaca 40 200
        (str ("frecuencia_cardiaca")) (str ("Frecuencia cardíaca"))
      let r2 := checkVital signos.frecuencia_respiratoria 8 40
        (str ("frecuencia_respiratoria")) (str ("Frecuencia respiratoria"))
      let r3 := checkVital signos.temperatura 35 42
        (str ("temperatura")) (str ("Temperatura"))
      let r4 := checkVital signos.saturacion_oxigeno 70 100
        (str ("saturacion_oxigeno")) (str ("Saturación de oxígeno"))
      let r5 := checkVital signos.peso_kg 20 300 (str ("peso_kg")) (str ("Peso"))
      let r6 := checkVital signos.talla_cm 100 250 (str ("talla_cm")) (str ("Talla"))
      let r7 := checkVital signos.imc 10 60 (str ("imc")) (str ("IMC"))
      let nuevos : SignosVitales :=
        { signos with
          frecuencia_cardiaca := r1.1, frecuencia_respiratoria := r2.1,
          temperatura := r3.1, saturacion_oxigeno := r4.1,
          peso_kg := r5.1, talla_cm := r6.1, imc := r7.1 }
      ({ historia with signos_vitales := some nuevos },
       r1.2 ++ r2.2 ++ r3.2 ++ r4.2 ++ r5.2 ++ r6.2 ++ r7.2)

def VALID_APTITUDES : List Str :=
  [str ("apto"), str ("apto_sin_restricciones"), str ("apto_con_recomendaciones"),
   str ("apto_con_restricciones"), str ("no_apto_temporal"),
   str ("no_apto_definitivo"), str ("pendiente")]

def APTITUD_MAPPINGS : List (Str × Str) :=
  [(str ("aplazado"), str ("pendiente")), (str ("aplazada"), str ("pendiente")),
   (str ("pendiente_evaluacion"), str ("pendiente")),
   (str ("en_evaluacion"), str ("pendiente")),
   (str ("por_definir"), str ("pendiente"))]

/-- normalize_aptitud_laboral (claude_processor.py lines 571-655). -/
def normalize_aptitud_laboral (historia : Historia) : Historia × List Alerta :=
  match historia.aptitud_laboral with
  | none => (historia, [])
  | some aptitud =>
      if aptitud = [] then (historia, [])
      else
        let aptitud_clean := strip (lower aptitud)
        match alookup APTITUD_MAPPINGS aptitud_clean with
        | some normalizada =>
            ({ historia with aptitud_laboral := some normalizada },
             [⟨str ("formato_incorrecto"), str ("baja"), str ("aptitud_laboral"),
               str ("Aptitud laboral no estándar"),
               str ("Verificar valor original en documento fuente")⟩])
        | none =>
            if aptitud_clean ∉ VALID_APTITUDES then
              ({ historia with aptitud_laboral := some (str ("pendiente")) },
               [⟨str ("formato_incorrecto"), str ("media"), str ("aptitud_laboral"),
                 str ("Aptitud laboral no reconocida"),
                 str ("Revisar documento para determinar aptitud laboral correcta")⟩])
            else (historia, [])

/-! ## pydantic model_validate (src/src/config/schemas.py) -/

def inRangeOpt (v : Option ℚ) (lo hi : ℚ) : Bool :=
  match v with
  | none => true
  | some x => decide (lo ≤ x) && decide (x ≤ hi)

/-- The constraints of HistoriaClinicaEstructurada.model_validate that the
consolidation pipelines can trip over (schemas.py):
  - tipo_documento_fuente must be one of the three declared literals: the
    value "consolidado", which both consolidation pipelines set before
    validating, is NOT among them (schemas.py lines 401-408);
  - every vital-sign field must respect its declared ge/le bounds
    (SignosVitales, schemas.py lines 328-337);
  - aptitud_laboral must be one of the declared literals (lines 460-468).
The remaining field constraints (diagnosis-code pattern, date parsing,
confidence bounds, ...) are not modelled; omitting a failure condition only
makes this model accept records the real validator rejects, and no theorem
below relies on the model accepting a record. -/
def model_validate (historia : Historia) : Option Historia :=
  if historia.tipo_documento_fuente ∉
      [str ("hc_completa"), str ("cmo"), str ("examen_especifico")] then none
  else if (match historia.signos_vitales with
           | none => false
           | some sv =>
               !(inRangeOpt sv.frecuencia_cardiaca 40 200
                 && inRangeOpt sv.frecuencia_respiratoria 8 40
                 && inRangeOpt sv.temperatura 35 42
                 && inRangeOpt sv.saturacion_oxigeno 70 100
                 && inRangeOpt sv.peso_kg 20 300
                 && inRangeOpt sv.talla_cm 100 250
                 && inRangeOpt sv.imc 10 60)) then none
  else if (match historia.aptitud_laboral with
           | none => false
           | some a => decide (a ∉ VALID_APTITUDES)) then none
  else some historia

/-! ## src/src/processors/validators.py -/

def isUpperAlphaChar (c : Char) : Bool := 'A' ≤ c ∧ c ≤ 'Z'

def isDigitChar (c : Char) : Bool := '0' ≤ c ∧ c ≤ '9'

/-- The CIE-10 pattern, a letter then two digits then an optional dot and one
or two digits (validators.py line 52). -/
def cie10_pattern_match (c : Str) : Bool :=
  match c with
  | a :: d1 :: d2 :: rest =>
      isUpperAlphaChar a && isDigitChar d1 && isDigitChar d2 &&
        (match rest with
         | [] => true
         | '.' :: f1 :: [] => isDigitChar f1
         | '.' :: f1 :: f2 :: [] => isDigitChar f1 && isDigitChar f2
         | _ => false)
  | _ => false

/-- VALID_CHAPTERS (validators.py lines 55-81): chapter letter with the valid
numeric range. -/
def VALID_CHAPTERS : List (Char × Nat × Nat) :=
  [('A', 0, 99), ('B', 0, 99), ('C', 0, 97), ('D', 0, 89), ('E', 0, 90),
   ('F', 0, 99), ('G', 0, 99), ('H', 0, 95), ('I', 0, 99), ('J', 0, 99),
   ('K', 0, 93), ('L', 0, 99), ('M', 0, 99), ('N', 0, 99), ('O', 0, 99),
   ('P', 0, 96), ('Q', 0, 99), ('R', 0, 99), ('S', 0, 99), ('T', 0, 98),
   ('V', 0, 99), ('W', 0, 99), ('X', 0, 99), ('Y', 0, 98), ('Z', 0, 99)]

def chapterRange (ch : Char) : Option (Nat × Nat) :=
  (VALID_CHAPTERS.find? (fun p => p.1 = ch)).map Prod.snd

def digitsToNat (ds : Str) : Nat :=
  ds.foldl (fun acc c => acc * 10 + (c.toNat - 48)) 0

/-- CIE10Validator.validate_format (validators.py lines 83-137); the message
strings keep the static part of the source f-strings. -/
def cie10_validate_format (code : Str) : Bool × Option Str :=
  if code = [] then (false, some (str ("Código vacío")))
  else
    let c := strip (upper code)
    if ¬ cie10_pattern_match c = true then
      (false, some (str ("Formato inválido: debe ser N80 o M54.5")))
    else
      match c with
      | ch :: d1 :: d2 :: _ =>
          (match chapterRange ch with
           | none => (false, some (str ("Capítulo inválido")))
           | some r =>
               let number := digitsToNat [d1, d2]
               if ¬ (r.1 ≤ number ∧ number ≤ r.2) then
                 (false, some (str ("Número fuera de rango para capítulo")))
               else if ('.' : Char) ∉ c then
                 (true, some (str ("Formato corto sin subcategoría")))
               else (true, none))
      | _ => (false, some (str ("Formato inválido: debe ser N80 o M54.5")))

/-- CIE10Validator.validate_diagnosis_list (validators.py lines 139-207);
after pydantic validation confianza defaults to 1.0, hence getD 1. -/
def validate_diagnosis_list (diagnosticos : List Diagnostico) : List Alerta :=
  if diagnosticos = [] then
    [⟨str ("dato_faltante"), str ("alta"), str ("diagnosticos"),
      str ("No se encontraron diagnósticos en la historia clínica"),
      str ("Verificar que la HC contenga diagnósticos o que la extracción fue completa")⟩]
  else
    (diagnosticos.enum.map (fun p =>
      let i := p.1
      let diag := p.2
      let r := cie10_validate_format (diag.codigo_cie10.getD [])
      let campo := str ("diagnosticos[") ++ natToStr i ++ str ("].codigo_cie10")
      let formatAlerts : List Alerta :=
        if r.1 = false then
          [⟨str ("formato_incorrecto"), str ("alta"), campo,
            str ("Código CIE-10 inválido: ") ++ diag.codigo_cie10.getD []
              ++ str (". ") ++ r.2.getD [],
            str ("Corregir el código CIE-10 manualmente")⟩]
        else
          match r.2 with
          | some msg =>
              [⟨str ("formato_incorrecto"), str ("baja"), campo,
                str ("Código CIE-10 en formato corto: ") ++ diag.codigo_cie10.getD []
                  ++ str (". ") ++ msg,
                str ("Agregar subcategoría si está disponible en el documento")⟩]
          | none => []
      let confAlerts : List Alerta :=
        if (diag.confianza.getD 1) < mkRat 7 10 then
          [⟨str ("dato_faltante"), str ("media"),
            str ("diagnosticos[") ++ natToStr i ++ str ("]"),
            str ("Diagnóstico con confianza baja: ") ++ diag.descripcion.getD [],
            str ("Verificar manualmente el diagnóstico en el documento original")⟩]
        else []
      formatAlerts ++ confAlerts)).flatten

/-- DateValidator.validate_emo_date (validators.py lines 241-281): missing
date is a high-severity missing-data alert; a date before January 1 of five
years ago or after today is a medium-severity format alert. -/
def validate_emo_date (today : Fecha) (fecha_emo : Option Fecha) : List Alerta :=
  match fecha_emo with
  | none =>
      [⟨str ("dato_faltante"), str ("alta"), str ("fecha_emo"),
        str ("No se encontró la fecha del examen médico ocupacional"),
        str ("Localizar y agregar la fecha del EMO manualmente")⟩]
  | some fecha =>
      let min_date : Fecha := ⟨today.y - 5, 1, 1⟩
      if fechaLt fecha min_date ∨ fechaLt today fecha then
        [⟨str ("formato_incorrecto"), str ("media"), str ("fecha_emo"),
          str ("Fecha del EMO fuera de rango esperado"),
          str ("Verificar que la fecha sea correcta")⟩]
      else []

/-- re.match of one-or-more digits, a slash, one-or-more digits, anchored at
the start (validators.py line 316). -/
def parse_presion (s : Str) : Option (Nat × Nat) :=
  let d1 := s.takeWhile isDigitChar
  if d1 = [] then none
  else
    match s.drop d1.length with
    | '/' :: rest =>
        let d2 := rest.takeWhile isDigitChar
        if d2 = [] then none
        else some (digitsToNat d1, digitsToNat d2)
    | _ => none

/-- ClinicalValueValidator.validate_vital_signs (validators.py lines 298-377):
blood-pressure, BMI and oxygen-saturation checks only; note the float
truthiness guards of the source (a 0 value is skipped). -/
def cv_validate_vital_signs (signos_vitales : Option SignosVitales) : List Alerta :=
  match signos_vitales with
  | none => []
  | some sv =>
      let bpAlerts : List Alerta :=
        match sv.presion_arterial with
        | none => []
        | some pa =>
            if pa = [] then []
            else
              match parse_presion pa with
              | none => []
              | some sd =>
                  if sd.1 ≥ 180 ∨ sd.2 ≥ 110 then
                    [⟨str ("valor_critico"), str ("alta"),
                      str ("signos_vitales.presion_arterial"),
                      str ("Presión arterial crítica: ") ++ pa
                        ++ str (" mmHg (crisis hipertensiva)"),
                      str ("Requiere atención médica inmediata")⟩]
                  else if sd.1 ≥ 140 ∨ sd.2 ≥ 90 then
                    [⟨str ("valor_critico"), str ("media"),
                      str ("signos_vitales.presion_arterial"),
                      str ("Presión arterial elevada: ") ++ pa ++ str (" mmHg"),
                      str ("Considerar seguimiento y manejo de hipertensión")⟩]
                  else []
      let imcAlerts : List Alerta :=
        match sv.imc with
        | none => []
        | some v =>
            if v = 0 then []
            else if v < 16 then
              [⟨str ("valor_critico"), str ("alta"), str ("signos_vitales.imc"),
                str ("IMC crítico bajo (delgadez severa)"),
                str ("Evaluación nutricional urgente")⟩]
            else if v ≥ 40 then
              [⟨str ("valor_critico"), str ("alta"), str ("signos_vitales.imc"),
                str ("IMC crítico alto (obesidad mórbida)"),
                str ("Evaluación médica y nutricional especializada")⟩]
            else []
      let satAlerts : List Alerta :=
        match sv.saturacion_oxigeno with
        | none => []
        | some v =>
            if v ≠ 0 ∧ v < 90 then
              [⟨str ("valor_critico"), str ("alta"),
                str ("signos_vitales.saturacion_oxigeno"),
                str ("Saturación de oxígeno crítica"),
                str ("Requiere evaluación respiratoria urgente")⟩]
            else []
      bpAlerts ++ imcAlerts ++ satAlerts

/-- normalize_text (validators.py lines 23-39): lowercase, strip, remove
accents, collapse whitespace. -/
def normalize_text (text : Str) : Str :=
  collapseWs (stripAccents (strip (lower text)))

/-- Does the exam carry one of the normal-result indicator phrases in its
normalized result or key findings (the inner any of the consistency checks)? -/
def examHasIndicator (inds : List Str) (exam : Examen) : Bool :=
  let resultado := normalize_text (exam.resultado.getD [])
  let hallazgos := normalize_text (exam.hallazgos_clave.getD [])
  inds.any (fun ind => isSub ind resultado || isSub ind hallazgos)

def VISUAL_DIAGNOSIS_CODES : List Str :=
  [str ("H52.0"), str ("H52.1"), str ("H52.2"), str ("H52.3"), str ("H52.4")]

def VISUAL_NORMAL_INDICATORS : List Str :=
  [str ("20/20"), str ("20/25"), str ("con correccion"), str ("corregido"),
   str ("corregida"), str ("normal"), str ("dentro de limites"),
   str ("vision corregida"), str ("ojo derecho 20/20"), str ("ojo izquierdo 20/20")]

/-- The interpolated exam text of the consistency-alert description
(a Python f-string rendering of the value, where None prints as None). -/
def fstr (o : Option Str) : Str := o.getD (str ("None"))

/-- check_visual_consistency (validators.py lines 380-468): a refractive
diagnosis (code starting with the first four characters of an H52.x code)
together with the first optometry exam showing a normal-vision indicator
yields one low-severity inconsistency alert per such diagnosis. -/
def check_visual_consistency (historia : Historia) : List Alerta :=
  let diagnosticos_visuales := historia.diagnosticos.filter (fun d =>
    VISUAL_DIAGNOSIS_CODES.any (fun code => (code.take 4).isPrefixOf (d.codigo_cie10.getD [])))
  let examenes_visuales := historia.examenes.filter (fun e => e.tipo = some (str ("optometria")))
  (diagnosticos_visuales.map (fun diag =>
    match examenes_visuales.find? (examHasIndicator VISUAL_NORMAL_INDICATORS) with
    | none => []
    | some exam =>
        [⟨str ("inconsistencia_diagnostica"), str ("baja"), str ("diagnosticos"),
          str ("Diagnóstico de ") ++ diag.descripcion.getD [] ++ str (" (")
            ++ diag.codigo_cie10.getD []
            ++ str (") pero examen de optometría indica: ")
            ++ fstr (pyOr exam.resultado exam.hallazgos_clave),
          str ("Confirmar si el diagnóstico visual requiere corrección óptica actual o es hallazgo leve/corregido. Revisar si aplica restricción laboral.")⟩])).flatten

def HEARING_DIAGNOSIS_CODES : List Str :=
  [str ("H90"), str ("H91"), str ("H83.3")]

def HEARING_NORMAL_INDICATORS : List Str :=
  [str ("audicion normal"), str ("auditivamente normal"), str ("bilateral normal"),
   str ("dentro de limites normales"), str ("sin perdida auditiva"),
   str ("sin hipoacusia"), str ("umbrales normales"), str ("audiometria normal")]

/-- check_hearing_consistency (validators.py lines 470-545). -/
def check_hearing_consistency (historia : Historia) : List Alerta :=
  let diagnosticos_auditivos := historia.diagnosticos.filter (fun d =>
    HEARING_DIAGNOSIS_CODES.any (fun code => code.isPrefixOf (d.codigo_cie10.getD [])))
  let examenes_auditivos := historia.examenes.filter (fun e => e.tipo = some (str ("audiometria")))
  (diagnosticos_auditivos.map (fun diag =>
    match examenes_auditivos.find? (examHasIndicator HEARING_NORMAL_INDICATORS) with
    | none => []
    | some exam =>
        [⟨str ("inconsistencia_diagnostica"), str ("baja"), str ("diagnosticos"),
          str ("Diagnóstico de ") ++ diag.descripcion.getD [] ++ str (" (")
            ++ diag.codigo_cie10.getD []
            ++ str (") pero audiometría indica: ")
            ++ fstr (pyOr exam.resultado exam.hallazgos_clave),
          str ("Confirmar si la hipoacusia se ha resuelto, es leve sin repercusión actual, o si el diagnóstico requiere actualización. Revisar exposición a ruido.")⟩])).flatten

def RESPIRATORY_DIAGNOSIS_CODES : List Str :=
  [str ("J44"), str ("J45"), str ("J68"), str ("J60"), str ("J61"), str ("J62")]

def RESPIRATORY_NORMAL_INDICATORS : List Str :=
  [str ("funcion pulmonar normal"), str ("funcion respiratoria normal"),
   str ("espirometria normal"), str ("patron normal"), str ("sin obstruccion"),
   str ("sin restriccion"), str ("fev1 normal"), str ("fvc normal"),
   str ("dentro de limites normales"), str ("parametros normales")]

/-- check_respiratory_consistency (validators.py lines 547-629). -/
def check_respiratory_consistency (historia : Historia) : List Alerta :=
  let diagnosticos_respiratorios := historia.diagnosticos.filter (fun d =>
    RESPIRATORY_DIAGNOSIS_CODES.any (fun code => code.isPrefixOf (d.codigo_cie10.getD [])))
  let examenes_respiratorios := historia.examenes.filter (fun e => e.tipo = some (str ("espirometria")))
  (diagnosticos_respiratorios.map (fun diag =>
    match examenes_respiratorios.find? (examHasIndicator RESPIRATORY_NORMAL_INDICATORS) with
    | none => []
    | some exam =>
        [⟨str ("inconsistencia_diagnostica"), str ("baja"), str ("diagnosticos"),
          str ("Diagnóstico de ") ++ diag.descripcion.getD [] ++ str (" (")
            ++ diag.codigo_cie10.getD []
            ++ str (") pero espirometría indica: ")
            ++ fstr (pyOr exam.resultado exam.hallazgos_clave),
          str ("Confirmar si la condición respiratoria está controlada, es leve, o si el diagnóstico requiere actualización. Revisar exposición a irritantes.")⟩])).flatten

/-- validate_diagnosis_exam_consistency (validators.py lines 631-676). -/
def validate_diagnosis_exam_consistency (historia : Historia) : List Alerta :=
  check_visual_consistency historia ++ check_hearing_consistency historia
    ++ check_respiratory_consistency historia

/-- validate_examenes_criticos_sin_reflejo (validators.py lines 679-742); the
interpolated excerpt of the finding text in the description is elided (the
filter never inspects the description of an inconsistencia_diagnostica
alert, which is whitelisted). -/
def validate_examenes_criticos_sin_reflejo (historia : Historia) : List Alerta :=
  let examenes_criticos := historia.examenes.filter (fun ex =>
    optTruthy ex.interpretacion &&
      (lower (ex.interpretacion.getD []) = str ("critico") ||
       lower (ex.interpretacion.getD []) = str ("alterado")))
  (examenes_criticos.map (fun exam =>
    let tipo := exam.tipo.getD []
    let tiene_diagnostico := historia.diagnosticos.any (fun d =>
      isSub (lower tipo) (lower (d.descripcion.getD [])))
    let tiene_recomendacion := historia.recomendaciones.any (fun r =>
      isSub (lower tipo) (lower (r.descripcion.getD [])))
    let restricciones := historia.restricciones_especificas.getD []
    let tiene_restriccion := isSub (lower tipo) (lower restricciones)
    if ¬ (tiene_diagnostico ∨ tiene_recomendacion ∨ tiene_restriccion) then
      [⟨str ("inconsistencia_diagnostica"), str ("baja"), str ("examenes"),
        str ("Examen ") ++ exam.interpretacion.getD [] ++ str (" de ") ++ tipo
          ++ str (" sin reflejo en diagnósticos, recomendaciones o restricciones"),
        str ("Verificar si el hallazgo requiere diagnóstico CIE-10, recomendación médica o restricción laboral específica")⟩]
    else [])).flatten

/-- validate_historia_completa (validators.py lines 745-820); today is the
current date read by the nested validate_emo_date. -/
def validate_historia_completa (today : Fecha) (historia : Historia) : List Alerta :=
  let es_examen_especifico := historia.tipo_documento_fuente = str ("examen_especifico")
  let a1 : List Alerta :=
    if historia.diagnosticos ≠ [] then validate_diagnosis_list historia.diagnosticos
    else if ¬ es_examen_especifico then
      [⟨str ("dato_faltante"), str ("alta"), str ("diagnosticos"),
        str ("No se encontraron diagnósticos en la historia clínica"),
        str ("Verificar que la HC contenga diagnósticos o que la extracción fue completa")⟩]
    else []
  let a2 : List Alerta :=
    if ¬ es_examen_especifico then validate_emo_date today historia.fecha_emo else []
  let a3 : List Alerta :=
    match historia.signos_vitales with
    | some sv => cv_validate_vital_signs (some sv)
    | none => []
  let a4 : List Alerta :=
    if ¬ es_examen_especifico ∧ historia.aptitud_laboral = none then
      [⟨str ("dato_faltante"), str ("alta"), str ("aptitud_laboral"),
        str ("No se encontró el concepto de aptitud laboral"),
        str ("Solicitar al médico ocupacional que emita concepto de aptitud")⟩]
    else []
  let a5 : List Alerta :=
    if optTruthy historia.restricciones_especificas ∧ historia.diagnosticos = [] then
      [⟨str ("inconsistencia_diagnostica"), str ("media"), str ("restricciones_especificas"),
        str ("Se especifican restricciones pero no hay diagnósticos que las justifiquen"),
        str ("Verificar diagnósticos asociados a las restricciones")⟩]
    else []
  a1 ++ a2 ++ a3 ++ a4 ++ a5

/-! ## The final validation stage of the two consolidation pipelines -/

/-- The two assignments every consolidation performs before validating: reset
the inherited alerts (consolidate_person.py line 344, processor_service.py
line 536) and stamp the record as consolidated (consolidate_person.py line
397, processor_service.py line 588). -/
def set_tipo_consolidado (consolidada : Historia) : Historia :=
  { consolidada with alertas_validacion := [],
                     tipo_documento_fuente := str ("consolidado") }

/-- The validation tail of consolidate_historias (consolidate_person.py lines
392-426): inside the try, stamp the record, re-validate it through pydantic,
run validate_historia_completa, filter, and store the filtered alerts; when
model_validate raises, the except branch returns the record as already
mutated, with its empty alert list. -/
def cp_apply_validations (today : Fecha) (consolidada : Historia) : Historia :=
  let c1 := set_tipo_consolidado consolidada
  match model_validate c1 with
  | none => c1
  | some historia_obj =>
      { c1 with alertas_validacion :=
          filter_alerts (validate_historia_completa today historia_obj) historia_obj }

/-- The validation tail of ProcessorService._consolidate_historias
(processor_service.py lines 585-638): stamp the record, pre-process it with
validate_signos_vitales and normalize_aptitud_laboral (both mutate the dict
before pydantic runs), then model_validate; on success the stored alerts are
the completeness, cross-consistency, critical-exam and pre-processing alerts
in that order, filtered; when model_validate raises, the except branch
returns the pre-processed record with its empty alert list. -/
def ps_apply_validations (today : Fecha) (consolidada : Historia) : Historia :=
  let c1 := set_tipo_consolidado consolidada
  let r1 := validate_signos_vitales c1
  let r2 := normalize_aptitud_laboral r1.1
  let alertas_preprocesamiento := r1.2 ++ r2.2
  let c2 := r2.1
  match model_validate c2 with
  | none => c2
  | some historia_obj =>
      let alertas_validacion :=
        validate_historia_completa today historia_obj
          ++ validate_diagnosis_exam_consistency historia_obj
          ++ validate_examenes_criticos_sin_reflejo historia_obj
          ++ alertas_preprocesamiento
      { c2 with alertas_validacion := filter_alerts alertas_validacion historia_obj }

/-! ## Concrete consolidated records for the C1 / C2 claims -/

/-- A well-formed consolidated record before the validation stage: every
field the pydantic model constrains is within bounds and the document type is
still the one of its source. -/
def histOk : Historia :=
  { tipo_documento_fuente := str ("hc_completa"),
    fecha_emo := some ⟨2025, 1, 1⟩,
    tipo_emo := some (str ("ingreso")),
    signos_vitales := none,
    diagnosticos := [⟨some (str ("M54.5")), some (str ("lumbago")), none, some 1⟩],
    antecedentes := [], examenes := [], recomendaciones := [],
    aptitud_laboral := some (str ("apto")),
    restricciones_especificas := none,
    alertas_validacion := [] }

/-- A vital-signs block whose heart rate is the corrupted value 999; every
other field is within its plausible range. -/
def svHr999 : SignosVitales :=
  { presion_arterial := some (str ("120/80")),
    frecuencia_cardiaca := some 999,
    frecuencia_respiratoria := some 16,
    temperatura := some 37,
    saturacion_oxigeno := some 98,
    peso_kg := some 70,
    talla_cm := some 170,
    imc := some 24 }

/-- histOk with the corrupted heart rate attached. -/
def histHr999 : Historia := { histOk with signos_vitales := some svHr999 }

/-- A fixed current date for the date validator. -/
def today0 : Fecha := ⟨2025, 6, 1⟩

/-- Claim C1: a consolidated record with heart_rate = 999 should end with a
high-severity valor_critico alert and a nulled heart rate.  The
pre-validator validate_signos_vitales in isolation does exactly that (first
conjunct), but neither consolidation pipeline delivers the alert: the
backend pipeline nulls the value yet returns an empty alert list, because
model_validate rejects tipo_documento_fuente = consolidado and the except
branch discards every alert (second conjunct); the CLI pipeline returns the
record with the value 999 intact and an empty alert list, since its
validator has no heart-rate check at all and the same validation failure
empties the alerts (third conjunct). -/
theorem claim_C1 :
    ((validate_signos_vitales histHr999).2.map (fun a => (a.tipo, a.severidad))
        = [(str ("valor_critico"), str ("alta"))]
      ∧ (validate_signos_vitales histHr999).1.signos_vitales.map
          (fun sv => sv.frecuencia_cardiaca) = some none)
    ∧ ((ps_apply_validations today0 histHr999).signos_vitales.map
          (fun sv => sv.frecuencia_cardiaca) = some none
      ∧ (ps_apply_validations today0 histHr999).alertas_validacion = [])
    ∧ ((cp_apply_validations today0 histHr999).signos_vitales.map
          (fun sv => sv.frecuencia_cardiaca) = some (some 999)
      ∧ (cp_apply_validations today0 histHr999).alertas_validacion = []) := by
  refine ⟨⟨?_, ?_⟩, ⟨?_, ?_⟩, ⟨?_, ?_⟩⟩ <;> decide

/-- Counterexample to claim C2: on this well-formed record the validation
stage raises (model_validate rejects the freshly stamped document type), yet
the returned record carries no alert at all — not the single medium-severity
evaluacion_incompleta alert the claim requires. -/
theorem claim_C2_counterexample :
    model_validate (set_tipo_consolidado histOk) = none
    ∧ (cp_apply_validations today0 histOk).alertas_validacion = [] := by
  refine ⟨?_, ?_⟩ <;> decide

/-- Claim C2, amended: whenever the validation stage of the CLI consolidation
fails (model_validate raises), the consolidated record is still returned —
unchanged apart from the stamped document type and the reset alert list —
and its alert list is empty; no evaluacion_incompleta alert is attached. -/
theorem claim_C2_amended (today : Fecha) (h : Historia)
    (hv : model_validate (set_tipo_consolidado h) = none) :
    cp_apply_validations today h = set_tipo_consolidado h
    ∧ (cp_apply_validations today h).alertas_validacion = [] := by
  have he : cp_apply_validations today h = set_tipo_consolidado h := by
    unfold cp_apply_validations
    dsimp only
    rw [hv]
  exact ⟨he, by rw [he]; rfl⟩

/-- Witness for the amended C2 at the concrete record histOk. -/
theorem claim_C2_witness :
    cp_apply_validations today0 histOk = set_tipo_consolidado histOk
    ∧ (cp_apply_validations today0 histOk).alertas_validacion = [] :=
  claim_C2_amended today0 histOk (by decide)
